import Mathlib

/-!
Verification development for the NexoWatt multi-use power-allocation adapter.

The definitions below are a shallow embedding, over exact rationals, of the
allocation and safety-control logic of the repository:

* helpers and the per-wallbox allocation pipeline of
  `src/modules/charging-management.js` (function `tick`, lines 1009-1127,
  together with the helpers `clamp`, `floorToStep`, `rampUp` and the
  per-wallbox bound computation, lines 395-444);
* the peak-shaving limit computation, violation/release predicates and
  hysteresis state machine of `src/modules/peak-shaving.js` (lines 196-296),
  and its actuator baseline capture/restore logic (lines 355-364, 403-558);
* the datapoint registry reads of `src/datapoints.js` (`getEntry`, `getRaw`,
  `getNumber`, `getAgeMs`, `isStale`).

JavaScript numbers are modelled as rationals (`ℚ`); the absent / `NaN` /
`Infinity` cases that the code checks with `Number.isFinite` are modelled
with `Option ℚ` where they can occur.
-/

set_option allowUnsafeReducibility true

set_option maxRecDepth 8000

attribute [semireducible] Rat.add Rat.mul Rat.sub Rat.inv Rat.div

namespace NexoWatt

/-! ### Numeric helpers (charging-management.js lines 18-43) -/

/-- The `clamp(n, min, max)` helper for finite bounds: first the lower bound
is applied, then the upper bound. -/
def clampQ (n lo hi : ℚ) : ℚ := min hi (max lo n)

/-- `floorToStep(value, step)`: round down to a multiple of `step`;
a step that is not positive means no stepping. -/
def floorToStep (v s : ℚ) : ℚ := if s ≤ 0 then v else ⌊v / s⌋ * s

/-- `rampUp(prevValue, targetValue, maxDeltaUp)`: limit an increase to
`prev + maxDelta`; a decrease is returned unchanged; a missing previous
value (`NaN` in the source) or a non-positive `maxDelta` disables limiting. -/
def rampUp (prev : Option ℚ) (t d : ℚ) : ℚ :=
  if d ≤ 0 then t
  else
    match prev with
    | none => t
    | some p => if t ≤ p then t else min t (p + d)

/-- Round down to the 0.1 A grid (`Math.floor(a * 10) / 10`). -/
def floorTenth (v : ℚ) : ℚ := (⌊v * 10⌋ : ℚ) / 10

/-- Round up to the 0.1 A grid (`Math.ceil(a * 10) / 10`). -/
def ceilTenth (v : ℚ) : ℚ := (⌈v * 10⌉ : ℚ) / 10

/-! ### Reason codes (reasons.js) -/

/-- The subset of `ReasonCodes` used by the charging-management tick. -/
inductive Reason where
  | staleMeter
  | limitedByBudget
  | noSetpoint
  | unlimited
  | noBudget
  | allocated
  | belowMin
  | pausedByPeakShaving
  | disabled
  | offline
  | skipped
  deriving DecidableEq, Repr

/-- `availabilityReason(enabled, online)` from charging-management.js. -/
def availabilityReason (enabled online : Bool) : Reason :=
  if ¬enabled then .disabled else if ¬online then .offline else .skipped

/-! ### Wallbox descriptors (charging-management.js lines 263-501) -/

inductive Basis where
  | currentA
  | powerW
  | noneB
  deriving DecidableEq, Repr

inductive ChargerType where
  | AC
  | DC
  deriving DecidableEq, Repr

/-- The fields of a `wbList` entry that the allocation loop reads, together
with the last commanded values `this._lastCmdTargetW/A.get(w.safe)` (modelled
per wallbox; `none` = no finite previous command). -/
structure Wallbox where
  safe : String
  enabled : Bool
  online : Bool
  charging : Bool
  chargingSinceMs : ℚ
  priority : ℚ
  basis : Basis
  chargerType : ChargerType
  hasSetA : Bool
  minPW : ℚ
  maxPW : ℚ
  minA : ℚ
  maxA : ℚ
  vFactor : ℚ
  prevCmdW : Option ℚ
  prevCmdA : Option ℚ
  deriving DecidableEq, Repr

/-- Global per-tick allocation parameters (already clamped by the tick's
config normalisation, lines 242-245). -/
structure AllocParams where
  stepW : ℚ
  stepA : ℚ
  maxDeltaW : ℚ
  maxDeltaA : ℚ
  deriving DecidableEq, Repr

/-! ### The per-wallbox allocation pipeline (tick lines 1015-1127) -/

/-- Lines 1020-1041: raw watt target from the remaining budget
(`none` = unlimited budget). -/
def allocTargetW (rem : Option ℚ) (w : Wallbox) : ℚ × Reason :=
  if w.basis = .noneB then (0, .noSetpoint)
  else
    match rem with
    | none => (w.maxPW, .unlimited)
    | some r =>
      if r ≤ 0 then (0, .noBudget)
      else if r ≥ w.minPW ∨ w.minPW = 0 then
        let t := min r w.maxPW
        if 0 < t ∧ 0 < w.minPW ∧ t < w.minPW then (0, .belowMin) else (t, .allocated)
      else (0, .belowMin)

/-- Line 1049-1050: `aRaw`, the unclamped-then-clamped ampere equivalent of
the allocated watt target. -/
def aRaw (w : Wallbox) (tW : ℚ) : ℚ :=
  clampQ (if 0 < tW ∧ 0 < w.vFactor then tW / w.vFactor else 0) 0 w.maxA

/-- Lines 1053-1065: floor to 0.1 A, the asymmetric round-up-to-minimum
retry, and the final drop-to-zero when still below `minA`. -/
def aRounded (w : Wallbox) (tW : ℚ) : ℚ :=
  let a1 := floorTenth (aRaw w tW)
  let a2 :=
    if 0 < a1 ∧ a1 < w.minA then
      let aUp := ceilTenth (aRaw w tW)
      if w.minA ≤ aUp ∧ aUp ≤ w.maxA then aUp else 0
    else a1
  if a2 < w.minA then 0 else a2

/-- Lines 1044-1082: unit conversion for current-based control, with the
floor-to-0.1 A rounding, the asymmetric round-up-to-minimum retry and the
post-quantisation minimum-power safety check (line 1070). Returns
(targetW, targetA, reason). -/
def convertTarget (w : Wallbox) (tW : ℚ) (r : Reason) : ℚ × ℚ × Reason :=
  if w.basis = .currentA ∧ w.hasSetA then
    let tA' : ℚ := aRounded w tW
    let tW' : ℚ := tA' * w.vFactor
    if 0 < tW' ∧ 0 < w.minPW ∧ tW' < w.minPW then (0, 0, .belowMin)
    else (tW', tA', r)
  else if w.chargerType = .AC then
    (tW, if 0 < tW ∧ 0 < w.vFactor then tW / w.vFactor else 0, r)
  else (tW, 0, r)

/-- Lines 1085-1118: step flooring, range clamping, minimum enforcement and
ramp limiting; returns (cmdW, cmdA). -/
def applyStepRamp (P : AllocParams) (w : Wallbox) (tW tA : ℚ) : ℚ × ℚ :=
  if w.basis = .currentA ∧ w.hasSetA then
    let c1 := floorToStep tA P.stepA
    let c2 := clampQ c1 0 w.maxA
    let c3 := if 0 < c2 ∧ 0 < w.minA ∧ c2 < w.minA then 0 else c2
    let c4 := rampUp w.prevCmdA c3 P.maxDeltaA
    let c5 := if 0 < c4 ∧ 0 < w.minA ∧ c4 < w.minA then 0 else c4
    let cw := if 0 < c5 ∧ 0 < w.vFactor then c5 * w.vFactor else 0
    (cw, c5)
  else
    let c1 := floorToStep tW P.stepW
    let c2 := if 0 < c1 ∧ 0 < w.minPW ∧ c1 < w.minPW then 0 else c1
    let c3 := rampUp w.prevCmdW c2 P.maxDeltaW
    let c4 := if 0 < c3 ∧ 0 < w.minPW ∧ c3 < w.minPW then 0 else c3
    let ca := if w.chargerType = .AC then (if 0 < c4 ∧ 0 < w.vFactor then c4 / w.vFactor else 0) else 0
    (c4, ca)

/-- Result row for one wallbox of the allocation loop. -/
structure WbAlloc where
  safe : String
  targetW : ℚ
  targetA : ℚ
  cmdW : ℚ
  cmdA : ℚ
  reason : Reason
  deriving DecidableEq, Repr

/-- One iteration of the allocation loop for one wallbox: target, unit
conversion, step/ramp, and the budget accounting
`remainingW = Math.max(0, remainingW - cmdW)` (lines 1120-1124), which uses
the final commanded power. -/
def allocStep (P : AllocParams) (rem : Option ℚ) (w : Wallbox) : WbAlloc × Option ℚ :=
  let t0 := allocTargetW rem w
  let c := convertTarget w t0.1 t0.2
  let sr := applyStepRamp P w c.1 c.2.1
  ({ safe := w.safe, targetW := c.1, targetA := c.2.1, cmdW := sr.1, cmdA := sr.2,
     reason := c.2.2 },
   rem.map (fun x => max 0 (x - sr.1)))

/-- The whole allocation loop over the sorted wallbox list. -/
def allocateAll (P : AllocParams) (rem : Option ℚ) : List Wallbox → List WbAlloc × Option ℚ
  | [] => ([], rem)
  | w :: ws =>
    let s := allocStep P rem w
    let t := allocateAll P s.2 ws
    (s.1 :: t.1, t.2)

/-- Total commanded power of an allocation run (`totalTargetPowerW`). -/
def sumCmdW (l : List WbAlloc) : ℚ := (l.map WbAlloc.cmdW).sum

/-! ### Elementary facts about the numeric helpers -/

theorem rampUp_le (prev : Option ℚ) (t d : ℚ) : rampUp prev t d ≤ t := by
  unfold rampUp
  split_ifs with h
  · exact le_refl t
  · cases prev with
    | none => exact le_refl t
    | some p =>
      dsimp only
      split_ifs with h2
      · exact le_refl t
      · exact min_le_left _ _

theorem rampUp_none (t d : ℚ) : rampUp none t d = t := by
  unfold rampUp
  split_ifs <;> rfl

theorem rampUp_of_le {p t : ℚ} (d : ℚ) (h : t ≤ p) : rampUp (some p) t d = t := by
  unfold rampUp
  split_ifs with h1
  · rfl
  · dsimp only
    rw [if_pos h]

theorem rampUp_some_le_add {p t d : ℚ} (hd : 0 < d) : rampUp (some p) t d ≤ p + d := by
  unfold rampUp
  rw [if_neg (by linarith : ¬d ≤ 0)]
  dsimp only
  split_ifs with h2
  · linarith
  · exact min_le_right _ _

theorem floorToStep_le (v s : ℚ) : floorToStep v s ≤ v := by
  unfold floorToStep
  split_ifs with h
  · exact le_refl v
  · have hs : 0 < s := lt_of_not_le h
    calc (⌊v / s⌋ : ℚ) * s ≤ (v / s) * s :=
          mul_le_mul_of_nonneg_right (Int.floor_le _) (le_of_lt hs)
      _ = v := div_mul_cancel₀ v (ne_of_gt hs)

theorem floorToStep_nonneg {v : ℚ} (s : ℚ) (hv : 0 ≤ v) : 0 ≤ floorToStep v s := by
  unfold floorToStep
  split_ifs with h
  · exact hv
  · have hs : 0 < s := lt_of_not_le h
    have : (0 : ℤ) ≤ ⌊v / s⌋ := Int.floor_nonneg.mpr (div_nonneg hv (le_of_lt hs))
    have h0 : (0 : ℚ) ≤ (⌊v / s⌋ : ℚ) := by exact_mod_cast this
    exact mul_nonneg h0 (le_of_lt hs)

theorem clampQ_le_right (n lo hi : ℚ) : clampQ n lo hi ≤ hi := min_le_left _ _

theorem clampQ_le_self {n : ℚ} (hi : ℚ) (h : 0 ≤ n) : clampQ n 0 hi ≤ n := by
  unfold clampQ
  rw [max_eq_right h]
  exact min_le_right _ _

theorem clampQ_nonneg {n hi : ℚ} (h : 0 ≤ hi) : 0 ≤ clampQ n 0 hi :=
  le_min h (le_max_left _ _)

theorem floorTenth_le (v : ℚ) : floorTenth v ≤ v := by
  unfold floorTenth
  rw [div_le_iff₀ (by norm_num : (0:ℚ) < 10)]
  exact Int.floor_le _

theorem floorTenth_nonneg {v : ℚ} (h : 0 ≤ v) : 0 ≤ floorTenth v := by
  unfold floorTenth
  have : (0 : ℤ) ≤ ⌊v * 10⌋ := Int.floor_nonneg.mpr (by positivity)
  positivity

theorem floorTenth_mono {a b : ℚ} (h : a ≤ b) : floorTenth a ≤ floorTenth b := by
  unfold floorTenth
  have : ⌊a * 10⌋ ≤ ⌊b * 10⌋ := Int.floor_le_floor (by linarith)
  have h2 : ((⌊a * 10⌋ : ℚ)) ≤ (⌊b * 10⌋ : ℚ) := by exact_mod_cast this
  linarith

/-- A nonnegative multiple of 0.1 is a fixed point of the 0.1 floor. -/
theorem floorTenth_tenth (k : ℕ) : floorTenth ((k : ℚ) / 10) = (k : ℚ) / 10 := by
  unfold floorTenth
  rw [div_mul_cancel₀ _ (by norm_num : (10:ℚ) ≠ 0)]
  rw [Int.floor_natCast]
  norm_num

theorem le_ceilTenth (v : ℚ) : v ≤ ceilTenth v := by
  unfold ceilTenth
  rw [le_div_iff₀ (by norm_num : (0:ℚ) < 10)]
  exact Int.le_ceil _

/-! ### Facts about the allocation pipeline -/

theorem allocTargetW_spec (w : Wallbox) {r : ℚ} (h0 : 0 ≤ r) (hmax : 0 ≤ w.maxPW) :
    0 ≤ (allocTargetW (some r) w).1 ∧ (allocTargetW (some r) w).1 ≤ r ∧
      (0 < w.minPW → 0 < (allocTargetW (some r) w).1 →
        w.minPW ≤ (allocTargetW (some r) w).1) := by
  simp only [allocTargetW]
  split_ifs with h1 h2 h3 h4
  · exact ⟨le_refl 0, h0, fun _ hc => absurd hc (lt_irrefl 0)⟩
  · exact ⟨le_refl 0, h0, fun _ hc => absurd hc (lt_irrefl 0)⟩
  · exact ⟨le_refl 0, h0, fun _ hc => absurd hc (lt_irrefl 0)⟩
  · refine ⟨le_min h0 hmax, min_le_left _ _, fun hmin hpos => ?_⟩
    by_contra hlt
    exact h4 ⟨hpos, hmin, lt_of_not_le hlt⟩
  · exact ⟨le_refl 0, h0, fun _ hc => absurd hc (lt_irrefl 0)⟩

theorem aRaw_nonneg (w : Wallbox) (tW : ℚ) (hmaxA : 0 ≤ w.maxA) : 0 ≤ aRaw w tW :=
  clampQ_nonneg hmaxA

theorem aRaw_mul_le (w : Wallbox) {tW r : ℚ} (htr : tW ≤ r) (h0r : 0 ≤ r)
    (hmaxA : 0 ≤ w.maxA) (hv : 0 < w.vFactor) : aRaw w tW * w.vFactor ≤ r := by
  unfold aRaw
  split_ifs with h
  · have h1 : clampQ (tW / w.vFactor) 0 w.maxA ≤ tW / w.vFactor :=
      clampQ_le_self _ (le_of_lt (div_pos h.1 hv))
    calc clampQ (tW / w.vFactor) 0 w.maxA * w.vFactor
        ≤ (tW / w.vFactor) * w.vFactor := mul_le_mul_of_nonneg_right h1 (le_of_lt hv)
      _ = tW := div_mul_cancel₀ tW (ne_of_gt hv)
      _ ≤ r := htr
  · have : clampQ 0 0 w.maxA = 0 := by
      unfold clampQ
      simp [hmaxA]
    rw [this, zero_mul]
    exact h0r

/-- If `aRaw` is positive then the conversion really happened:
the watt target and `vFactor` are positive and `aRaw ≤ tW / vFactor`. -/
theorem aRaw_pos_inv (w : Wallbox) {tW : ℚ} (h : 0 < aRaw w tW) :
    0 < tW ∧ 0 < w.vFactor ∧ aRaw w tW ≤ tW / w.vFactor ∧ 0 < w.maxA := by
  have hmax : 0 < w.maxA := lt_of_lt_of_le h (clampQ_le_right _ _ _)
  unfold aRaw at h ⊢
  split_ifs at h ⊢ with hc
  · refine ⟨hc.1, hc.2, ?_, hmax⟩
    exact clampQ_le_self _ (le_of_lt (div_pos hc.1 hc.2))
  · exfalso
    have : clampQ 0 0 w.maxA = 0 := by
      unfold clampQ
      simp [le_of_lt hmax]
    rw [this] at h
    exact lt_irrefl 0 h

theorem aRounded_nonneg (w : Wallbox) (tW : ℚ) (hmaxA : 0 ≤ w.maxA) :
    0 ≤ aRounded w tW := by
  unfold aRounded
  have h1 : 0 ≤ floorTenth (aRaw w tW) := floorTenth_nonneg (aRaw_nonneg w tW hmaxA)
  dsimp only
  split_ifs <;> linarith

/-- If the rounded ampere value is nonzero it satisfies the minimum-current
bound: the drop-to-zero on line 1065 is the last assignment. -/
theorem aRounded_min (w : Wallbox) (tW : ℚ) (h : 0 < aRounded w tW) :
    w.minA ≤ aRounded w tW := by
  unfold aRounded at h ⊢
  dsimp only at h ⊢
  by_cases hA : 0 < floorTenth (aRaw w tW) ∧ floorTenth (aRaw w tW) < w.minA
  · rw [if_pos hA] at h ⊢
    by_cases hB : w.minA ≤ ceilTenth (aRaw w tW) ∧ ceilTenth (aRaw w tW) ≤ w.maxA
    · rw [if_pos hB] at h ⊢
      split_ifs at h ⊢ with hC
      · exact absurd h (lt_irrefl 0)
      · exact hB.1
    · rw [if_neg hB] at h ⊢
      split_ifs at h ⊢ with hC
      · exact absurd h (lt_irrefl 0)
      · exact absurd h (lt_irrefl 0)
  · rw [if_neg hA] at h ⊢
    split_ifs at h ⊢ with hC
    · exact absurd h (lt_irrefl 0)
    · exact not_lt.mp hC

/-- Under the minimum-current quantisation guarantee
(either `maxA < minA`, so the retry bound check fails, or `minA` is a
nonnegative multiple of 0.1 A with `minA * vFactor ≤ minPW`, which the AC
bound computation of lines 429-441 establishes), the round-up retry can
never fire successfully, so the rounded value never exceeds `aRaw`. -/
theorem aRounded_le_aRaw (w : Wallbox) {tW : ℚ}
    (hmaxA : 0 ≤ w.maxA)
    (hminP : 0 < w.minPW → 0 < tW → w.minPW ≤ tW)
    (hsafe : w.maxA < w.minA ∨
      ((∃ k : ℕ, w.minA = (k : ℚ) / 10) ∧ w.minA * w.vFactor ≤ w.minPW)) :
    aRounded w tW ≤ aRaw w tW := by
  have hA0 : 0 ≤ aRaw w tW := aRaw_nonneg w tW hmaxA
  have hfl : floorTenth (aRaw w tW) ≤ aRaw w tW := floorTenth_le _
  unfold aRounded
  dsimp only
  by_cases hretry : 0 < floorTenth (aRaw w tW) ∧ floorTenth (aRaw w tW) < w.minA
  · rw [if_pos hretry]
    -- the retry can only fail here: success contradicts the quantisation
    have hfail : ¬(w.minA ≤ ceilTenth (aRaw w tW) ∧ ceilTenth (aRaw w tW) ≤ w.maxA) := by
      rintro ⟨hup1, hup2⟩
      have hminAmaxA : w.minA ≤ w.maxA := le_trans hup1 hup2
      rcases hsafe with hlt | ⟨hk, hqm⟩
      · exact absurd hminAmaxA (not_le.mpr hlt)
      have hApos : 0 < aRaw w tW := lt_of_lt_of_le hretry.1 hfl
      obtain ⟨htW, hv, hle, hmaxApos⟩ := aRaw_pos_inv w hApos
      have hminApos : 0 < w.minA := lt_trans hretry.1 hretry.2
      have hminPWpos : 0 < w.minPW :=
        lt_of_lt_of_le (mul_pos hminApos hv) hqm
      have htWmin : w.minPW ≤ tW := hminP hminPWpos htW
      -- minA ≤ tW / vFactor
      have hminAdiv : w.minA ≤ tW / w.vFactor := by
        rw [le_div_iff₀ hv]
        exact le_trans hqm htWmin
      -- hence aRaw ≥ minA
      have hAraw : w.minA ≤ aRaw w tW := by
        unfold aRaw
        rw [if_pos ⟨htW, hv⟩]
        unfold clampQ
        exact le_min hminAmaxA (le_max_of_le_right hminAdiv)
      obtain ⟨k, hkk⟩ := hk
      have : w.minA ≤ floorTenth (aRaw w tW) := by
        calc w.minA = floorTenth w.minA := by rw [hkk, floorTenth_tenth]
          _ ≤ floorTenth (aRaw w tW) := floorTenth_mono hAraw
      exact absurd hretry.2 (not_lt.mpr this)
    rw [if_neg hfail]
    have hminApos : 0 < w.minA := lt_trans hretry.1 hretry.2
    rw [if_pos hminApos]
    exact hA0
  · rw [if_neg hretry]
    split_ifs with h2
    · exact hA0
    · exact hfl

/-- Helper for the final wattage guard of the current branch
(`cmdW = cmdA > 0 && vFactor > 0 ? cmdA * vFactor : 0`). -/
theorem cwGuard_spec {c5 vF tA : ℚ} (h : 0 < c5 → c5 ≤ tA) :
    (if 0 < c5 ∧ 0 < vF then c5 * vF else 0) = 0 ∨
      (0 < vF ∧ (if 0 < c5 ∧ 0 < vF then c5 * vF else 0) ≤ tA * vF) := by
  split_ifs with hc
  · exact Or.inr ⟨hc.2, mul_le_mul_of_nonneg_right (h hc.1) (le_of_lt hc.2)⟩
  · exact Or.inl rfl

/-- In the current-based branch of the step/ramp stage, the commanded power
is zero or bounded by the ampere target times `vFactor`. -/
theorem applyStepRamp_currentA_spec (P : AllocParams) (w : Wallbox) (tW : ℚ) {tA : ℚ}
    (hb : w.basis = .currentA ∧ w.hasSetA = true) (htA : 0 ≤ tA) :
    (applyStepRamp P w tW tA).1 = 0 ∨
      (0 < w.vFactor ∧ (applyStepRamp P w tW tA).1 ≤ tA * w.vFactor) := by
  unfold applyStepRamp
  rw [if_pos (show w.basis = .currentA ∧ w.hasSetA = true from hb)]
  dsimp only
  have h1 : floorToStep tA P.stepA ≤ tA := floorToStep_le _ _
  have h1' : 0 ≤ floorToStep tA P.stepA := floorToStep_nonneg _ htA
  have h2 : clampQ (floorToStep tA P.stepA) 0 w.maxA ≤ floorToStep tA P.stepA :=
    clampQ_le_self _ h1'
  apply cwGuard_spec
  intro hpos
  split_ifs at hpos ⊢ with h3 h5
  · exact absurd hpos (lt_irrefl 0)
  · linarith [rampUp_le w.prevCmdA 0 P.maxDeltaA]
  · exact absurd hpos (lt_irrefl 0)
  · linarith [rampUp_le w.prevCmdA (clampQ (floorToStep tA P.stepA) 0 w.maxA) P.maxDeltaA]

/-- In the power-based branch of the step/ramp stage, the commanded power
never exceeds the incoming watt target. -/
theorem applyStepRamp_else_le (P : AllocParams) (w : Wallbox) {tW : ℚ} (tA : ℚ)
    (hb : ¬(w.basis = .currentA ∧ w.hasSetA = true)) (htW : 0 ≤ tW) :
    (applyStepRamp P w tW tA).1 ≤ tW := by
  unfold applyStepRamp
  rw [if_neg hb]
  dsimp only
  have h1 : floorToStep tW P.stepW ≤ tW := floorToStep_le _ _
  split_ifs with hA hB hC <;>
    first
      | exact htW
      | linarith [rampUp_le w.prevCmdW 0 P.maxDeltaW]
      | linarith [rampUp_le w.prevCmdW (floorToStep tW P.stepW) P.maxDeltaW]

/-- The quantisation side condition that makes the round-up retry safe for a
current-controlled wallbox: either the bounds are inverted (`maxA < minA`,
so the retry bound check can never pass), or the minimum current is a
nonnegative multiple of the 0.1 A rounding step and the minimum power bound
covers `minA * vFactor`. The AC bound computation (lines 429-441)
establishes this for every AC wallbox; a DC wallbox controlled in amperes
need not satisfy it. -/
def QuantSafe (w : Wallbox) : Prop :=
  w.basis = .currentA → w.hasSetA = true →
    (w.maxA < w.minA ∨
      ((∃ k : ℕ, w.minA = (k : ℚ) / 10) ∧ w.minA * w.vFactor ≤ w.minPW))

/-- One allocation-loop iteration keeps the commanded power within the
remaining budget and decrements the budget exactly by the commanded power. -/
theorem allocStep_le (P : AllocParams) (w : Wallbox) {r : ℚ}
    (h0 : 0 ≤ r) (hmaxA : 0 ≤ w.maxA) (hmaxPW : 0 ≤ w.maxPW)
    (hq : QuantSafe w) :
    (allocStep P (some r) w).1.cmdW ≤ r ∧
      (allocStep P (some r) w).2 = some (r - (allocStep P (some r) w).1.cmdW) := by
  obtain ⟨ht0, htr, hminP⟩ := allocTargetW_spec w h0 hmaxPW
  have hcmd : (allocStep P (some r) w).1.cmdW ≤ r := by
    show (applyStepRamp P w _ _).1 ≤ r
    by_cases hcb : w.basis = .currentA ∧ w.hasSetA = true
    · have hsafe := hq hcb.1 hcb.2
      have hconv :
          convertTarget w (allocTargetW (some r) w).1 (allocTargetW (some r) w).2 =
            (0, 0, .belowMin) ∨
          (convertTarget w (allocTargetW (some r) w).1 (allocTargetW (some r) w).2).2.1 =
            aRounded w (allocTargetW (some r) w).1 := by
        unfold convertTarget
        rw [if_pos hcb]
        dsimp only
        split_ifs with hdem
        · exact Or.inl rfl
        · exact Or.inr rfl
      rcases hconv with hconv | hconv
      · rw [hconv]
        rcases applyStepRamp_currentA_spec P w (0 : ℚ) hcb (le_refl (0:ℚ)) with hz | ⟨hv, hle⟩
        · rw [hz]; exact h0
        · calc (applyStepRamp P w 0 0).1 ≤ 0 * w.vFactor := hle
            _ = 0 := zero_mul _
            _ ≤ r := h0
      · rw [hconv]
        have htA0 : 0 ≤ aRounded w (allocTargetW (some r) w).1 :=
          aRounded_nonneg w _ hmaxA
        rcases applyStepRamp_currentA_spec P w
            (convertTarget w (allocTargetW (some r) w).1 (allocTargetW (some r) w).2).1
            hcb htA0 with hz | ⟨hv, hle⟩
        · rw [hz]; exact h0
        · have haR : aRounded w (allocTargetW (some r) w).1 ≤
              aRaw w (allocTargetW (some r) w).1 :=
            aRounded_le_aRaw w hmaxA hminP hsafe
          calc (applyStepRamp P w _ _).1
              ≤ aRounded w (allocTargetW (some r) w).1 * w.vFactor := hle
            _ ≤ aRaw w (allocTargetW (some r) w).1 * w.vFactor :=
                mul_le_mul_of_nonneg_right haR (le_of_lt hv)
            _ ≤ r := aRaw_mul_le w htr h0 hmaxA hv
    · have hconv1 :
          (convertTarget w (allocTargetW (some r) w).1 (allocTargetW (some r) w).2).1 =
            (allocTargetW (some r) w).1 := by
        unfold convertTarget
        rw [if_neg hcb]
        split_ifs <;> rfl
      rw [hconv1]
      exact le_trans (applyStepRamp_else_le P w _ hcb ht0) htr
  refine ⟨hcmd, ?_⟩
  have hmap : (allocStep P (some r) w).2 =
      Option.map (fun x => max 0 (x - (allocStep P (some r) w).1.cmdW)) (some r) := rfl
  rw [hmap]
  simp only [Option.map_some']
  congr 1
  exact max_eq_right (by linarith)

/-- The allocation loop over a whole list: with a finite nonnegative budget,
the total commanded power equals budget minus final remaining budget, which
stays nonnegative. -/
theorem allocateAll_sum (P : AllocParams) (ws : List Wallbox) : ∀ {B : ℚ}, 0 ≤ B →
    (∀ w ∈ ws, 0 ≤ w.maxA ∧ 0 ≤ w.maxPW ∧ QuantSafe w) →
    ∃ rf : ℚ, (allocateAll P (some B) ws).2 = some rf ∧ 0 ≤ rf ∧
      sumCmdW (allocateAll P (some B) ws).1 = B - rf := by
  induction ws with
  | nil =>
    intro B hB _
    exact ⟨B, rfl, hB, by simp [allocateAll, sumCmdW]⟩
  | cons w ws ih =>
    intro B hB hall
    obtain ⟨hwa, hwp, hwq⟩ := hall w (List.mem_cons_self w ws)
    obtain ⟨hcmd, hacct⟩ := allocStep_le P w hB hwa hwp hwq
    have hB' : 0 ≤ B - (allocStep P (some B) w).1.cmdW := by linarith
    obtain ⟨rf, h1, h2, h3⟩ :=
      ih hB' (fun x hx => hall x (List.mem_cons_of_mem w hx))
    refine ⟨rf, ?_, h2, ?_⟩
    · show (allocateAll P (allocStep P (some B) w).2 ws).2 = some rf
      rw [hacct]
      exact h1
    · show sumCmdW ((allocStep P (some B) w).1 :: (allocateAll P (allocStep P (some B) w).2 ws).1) = B - rf
      rw [hacct]
      unfold sumCmdW at h3 ⊢
      simp only [List.map_cons, List.sum_cons]
      rw [h3]
      ring

end NexoWatt

namespace NexoWatt

/-! ### The AC bound computation (charging-management.js lines 395-444) -/

/-- The AC min/max power bound computation of the wallbox snapshot
(lines 414-444): derive `[minPW, maxPW]` from the current bounds (or the
explicit power bounds for power-based control), enforce
`maxPW < minPW → minPW := maxPW`, apply the practical 3-phase minimum
`acMinPower3pW`, and quantise the minimum to the 0.1 A grid for
current-based control. Returns (minA, minPW, maxPW). -/
def acBounds (basis : Basis) (minA0 maxA voltageV : ℚ) (phases : ℕ)
    (acMinPower3pW : ℚ) (minPowerWCfg maxPowerWCfg : Option ℚ) : ℚ × ℚ × ℚ :=
  let vFactor := voltageV * (phases : ℚ)
  let minFromA := max 0 minA0 * vFactor
  let maxFromA := max 0 maxA * vFactor
  let minPW1 :=
    if basis = .powerW then
      match minPowerWCfg with
      | some m => if 0 < m then m else minFromA
      | none => minFromA
    else minFromA
  let maxPW1 :=
    if basis = .powerW then
      match maxPowerWCfg with
      | some m => if 0 < m then m else maxFromA
      | none => maxFromA
    else maxFromA
  let minPW2 := if maxPW1 < minPW1 then maxPW1 else minPW1
  let minPW3 :=
    if phases = 3 ∧ 0 < acMinPower3pW then max minPW2 acMinPower3pW else minPW2
  if basis = .currentA ∧ 0 < vFactor ∧ 0 < minPW3 then
    let minAq := ceilTenth (minPW3 / vFactor)
    if 0 < minAq then (max minA0 minAq, minAq * vFactor, maxPW1)
    else (minA0, minPW3, maxPW1)
  else (minA0, minPW3, maxPW1)

/-- Every AC wallbox with current-based control built by the bound
computation satisfies the retry-safety side condition: either its bounds are
inverted, or its minimum current is a nonnegative multiple of 0.1 A with
`minA * vFactor = minPW`. -/
theorem acBounds_currentA_safe (minA0 maxA voltageV : ℚ) (phases : ℕ)
    (acMin : ℚ) (minCfg maxCfg : Option ℚ)
    (h0 : 0 ≤ minA0) (hv : 0 < voltageV * (phases : ℚ)) :
    maxA < (acBounds .currentA minA0 maxA voltageV phases acMin minCfg maxCfg).1 ∨
      ((∃ k : ℕ,
          (acBounds .currentA minA0 maxA voltageV phases acMin minCfg maxCfg).1 =
            (k : ℚ) / 10) ∧
        (acBounds .currentA minA0 maxA voltageV phases acMin minCfg maxCfg).1 *
            (voltageV * (phases : ℚ)) ≤
          (acBounds .currentA minA0 maxA voltageV phases acMin minCfg maxCfg).2.1) := by
  unfold acBounds
  dsimp only
  simp only [reduceCtorEq, if_false, eq_self_iff_true, true_and]
  rw [max_eq_right h0]
  set vF : ℚ := voltageV * (phases : ℚ) with hvF
  set minFromA : ℚ := minA0 * vF with hminFromA
  set maxFromA : ℚ := max 0 maxA * vF with hmaxFromA
  set minPW2 : ℚ := if maxFromA < minFromA then maxFromA else minFromA with hminPW2
  set minPW3 : ℚ :=
    if phases = 3 ∧ 0 < acMin then max minPW2 acMin else minPW2 with hminPW3
  have hmaxFromA0 : 0 ≤ maxFromA := mul_nonneg (le_max_left _ _) (le_of_lt hv)
  have hminPW2' : minFromA ≤ minPW2 ∨ (minPW2 = maxFromA ∧ maxFromA < minFromA) := by
    rw [hminPW2]
    split_ifs with h
    · exact Or.inr ⟨rfl, h⟩
    · exact Or.inl (le_refl _)
  have hminPW23 : minPW2 ≤ minPW3 := by
    rw [hminPW3]
    split_ifs with h
    · exact le_max_left _ _
    · exact le_refl _
  by_cases hq : 0 < minPW3
  · rw [if_pos ⟨hv, hq⟩]
    have hAq : minPW3 / vF ≤ ceilTenth (minPW3 / vF) := le_ceilTenth _
    have hAqpos : 0 < ceilTenth (minPW3 / vF) :=
      lt_of_lt_of_le (div_pos hq hv) hAq
    rw [if_pos hAqpos]
    dsimp only
    by_cases hcase : minA0 ≤ ceilTenth (minPW3 / vF)
    · rw [max_eq_right hcase]
      right
      constructor
      · refine ⟨(⌈minPW3 / vF * 10⌉).toNat, ?_⟩
        unfold ceilTenth
        congr 1
        have hnn : (0:ℤ) ≤ ⌈minPW3 / vF * 10⌉ := by positivity
        exact_mod_cast (Int.toNat_of_nonneg hnn).symm
      · exact le_refl _
    · rw [max_eq_left (le_of_not_le hcase)]
      left
      push_neg at hcase
      -- minA0 * vF > minPW3, so the bound swap must have fired
      have h1 : minPW3 < minA0 * vF := by
        have : minPW3 / vF < minA0 := lt_of_le_of_lt hAq hcase
        calc minPW3 = minPW3 / vF * vF := (div_mul_cancel₀ _ (ne_of_gt hv)).symm
          _ < minA0 * vF := by
              exact mul_lt_mul_of_pos_right this hv
      rcases hminPW2' with h2 | ⟨h2, h3⟩
      · exfalso
        rw [hminFromA] at h2
        linarith [le_trans h2 hminPW23]
      · rw [hminFromA] at h3
        rw [hmaxFromA] at h3
        have : max 0 maxA < minA0 := lt_of_mul_lt_mul_right (by linarith) (le_of_lt hv)
        exact lt_of_le_of_lt (le_max_right 0 maxA) this
  · rw [if_neg (by
      rintro ⟨-, hc⟩
      exact hq hc)]
    dsimp only
    by_cases hA0 : minA0 = 0
    · right
      subst hA0
      refine ⟨⟨0, by norm_num⟩, ?_⟩
      rw [zero_mul]
      have : (0:ℚ) ≤ minPW2 := by
        rcases hminPW2' with h2 | ⟨h2, -⟩
        · rw [hminFromA] at h2
          simpa using h2
        · rw [h2]
          exact hmaxFromA0
      linarith [hminPW23]
    · left
      have hA0' : 0 < minA0 := lt_of_le_of_ne h0 (Ne.symm hA0)
      have hminFromApos : 0 < minFromA := by
        rw [hminFromA]
        exact mul_pos hA0' hv
      push_neg at hq
      rcases hminPW2' with h2 | ⟨h2, h3⟩
      · exfalso
        linarith [le_trans h2 hminPW23]
      · have hmf : maxFromA ≤ 0 := by
          rw [← h2]
          linarith [hminPW23]
        rw [hmaxFromA] at hmf
        have hmaxA0 : max 0 maxA ≤ 0 := by
          by_contra hmm
          push_neg at hmm
          nlinarith
        have : maxA ≤ 0 := le_trans (le_max_right 0 maxA) hmaxA0
        linarith

end NexoWatt

namespace NexoWatt

/-! ### Claim C1: budget conservation -/

/-- Default global stepping parameters of the tick (lines 242-245):
`stepA` defaults to 0.1 A, the others to 0 (disabled). -/
def defaultStepParams : AllocParams :=
  { stepW := 0, stepA := 1/10, maxDeltaW := 0, maxDeltaA := 0 }

/-- A DC wallbox controlled in amperes (only `setCurrentAId` configured)
whose configured minimum current 6.05 A is not on the 0.1 A grid. The DC
bound branch (lines 401-413) leaves `minPW = 0` and `maxPW = 1000000`, and
no current quantisation is applied. -/
def dcRetryWallbox : Wallbox :=
  { safe := "dc1", enabled := true, online := true, charging := false,
    chargingSinceMs := 0, priority := 1,
    basis := .currentA, chargerType := .DC, hasSetA := true,
    minPW := 0, maxPW := 1000000, minA := 121/20, maxA := 16, vFactor := 690,
    prevCmdW := none, prevCmdA := none }

/-- C1 (counterexample): with a finite budget of 4150 W and a single DC
ampere-controlled wallbox with `minA = 6.05 A` (`vFactor = 690`), the
allocation computes `aRaw = 4150/690 ≈ 6.014`, floors it to 6.0 A, finds it
below `minA`, and the round-up retry commits 6.1 A = 4209 W, exceeding the
4150 W budget: the commanded total is NOT bounded by the budget. -/
theorem C1_budget_exceeded_cex :
    4150 < sumCmdW (allocateAll defaultStepParams (some 4150) [dcRetryWallbox]).1 := by
  decide

/-- C1 (amended): for every allocation tick with a finite nonnegative budget,
the sum of the final commanded powers stays within the budget, provided each
wallbox has nonnegative `maxA`/`maxPW` bounds and each ampere-controlled
wallbox satisfies the retry-safety condition `QuantSafe` (minimum current on
the 0.1 A grid with `minA * vFactor ≤ minPW`, or inverted bounds) — which
the AC bound computation guarantees (`acBounds_currentA_safe`) but a DC
ampere-controlled wallbox can escape. -/
theorem C1_budget_conservation_quantSafe (P : AllocParams) (ws : List Wallbox) (B : ℚ)
    (hB : 0 ≤ B)
    (hws : ∀ w ∈ ws, 0 ≤ w.maxA ∧ 0 ≤ w.maxPW ∧ QuantSafe w) :
    sumCmdW (allocateAll P (some B) ws).1 ≤ B := by
  obtain ⟨rf, -, h2, h3⟩ := allocateAll_sum P ws hB hws
  linarith

/-- An AC wallbox as built by the tick's bound computation: 6 A..16 A at
230 V, 3 phases, practical 3-phase floor 4200 W; quantisation raises
`minA` to 6.1 A and `minPW` to 4209 W. -/
def acWitnessWallbox : Wallbox :=
  { safe := "ac1", enabled := true, online := true, charging := false,
    chargingSinceMs := 0, priority := 1,
    basis := .currentA, chargerType := .AC, hasSetA := true,
    minPW := 4209, maxPW := 11040, minA := 61/10, maxA := 16, vFactor := 690,
    prevCmdW := none, prevCmdA := none }

/-- C1 (witness): the amended theorem applied to a concrete AC wallbox and
a finite budget of 15000 W. -/
theorem C1_budget_conservation_quantSafe_witness :
    sumCmdW (allocateAll defaultStepParams (some 15000) [acWitnessWallbox]).1 ≤ 15000 :=
  C1_budget_conservation_quantSafe defaultStepParams [acWitnessWallbox] 15000
    (by decide)
    (by
      intro w hw
      rw [List.mem_singleton] at hw
      subst hw
      exact ⟨by decide, by decide, fun _ _ => Or.inr ⟨⟨61, by decide⟩, by decide⟩⟩)

end NexoWatt

namespace NexoWatt

/-! ### Claim C6: minimum enforcement -/

/-- In the current branch, a nonzero commanded current respects `minA`
(last demotion, line 1103). -/
theorem applyStepRamp_cmdA_min (P : AllocParams) (w : Wallbox) (tW tA : ℚ)
    (hb : w.basis = .currentA ∧ w.hasSetA = true)
    (hpos : 0 < (applyStepRamp P w tW tA).2) (hminA : 0 < w.minA) :
    w.minA ≤ (applyStepRamp P w tW tA).2 := by
  unfold applyStepRamp at hpos ⊢
  rw [if_pos hb] at hpos ⊢
  dsimp only at hpos ⊢
  split_ifs at hpos ⊢ with h3 h5 h5'
  · exact absurd hpos (lt_irrefl 0)
  · exact not_lt.mp fun hlt => h5 ⟨hpos, hminA, hlt⟩
  · exact absurd hpos (lt_irrefl 0)
  · exact not_lt.mp fun hlt => h5' ⟨hpos, hminA, hlt⟩

/-- In the power branch, a nonzero commanded power respects `minPW`
(last demotion, line 1111). -/
theorem applyStepRamp_cmdW_min_else (P : AllocParams) (w : Wallbox) (tW tA : ℚ)
    (hb : ¬(w.basis = .currentA ∧ w.hasSetA = true))
    (hpos : 0 < (applyStepRamp P w tW tA).1) (hminP : 0 < w.minPW) :
    w.minPW ≤ (applyStepRamp P w tW tA).1 := by
  unfold applyStepRamp at hpos ⊢
  rw [if_neg hb] at hpos ⊢
  dsimp only at hpos ⊢
  split_ifs at hpos ⊢ with h2 h4 h4'
  · exact absurd hpos (lt_irrefl 0)
  · exact not_lt.mp fun hlt => h4 ⟨hpos, hminP, hlt⟩
  · exact absurd hpos (lt_irrefl 0)
  · exact not_lt.mp fun hlt => h4' ⟨hpos, hminP, hlt⟩

/-- In the current branch, the commanded power is zero or exactly
`cmdA * vFactor` with both factors positive (line 1104). -/
theorem applyStepRamp_cmdW_eq_currentA (P : AllocParams) (w : Wallbox) (tW tA : ℚ)
    (hb : w.basis = .currentA ∧ w.hasSetA = true) :
    (applyStepRamp P w tW tA).1 = 0 ∨
      ((applyStepRamp P w tW tA).1 = (applyStepRamp P w tW tA).2 * w.vFactor ∧
        0 < w.vFactor ∧ 0 < (applyStepRamp P w tW tA).2) := by
  have hgen : ∀ c5 : ℚ, (if 0 < c5 ∧ 0 < w.vFactor then c5 * w.vFactor else 0) = 0 ∨
      ((if 0 < c5 ∧ 0 < w.vFactor then c5 * w.vFactor else 0) = c5 * w.vFactor ∧
        0 < w.vFactor ∧ 0 < c5) := by
    intro c5
    split_ifs with h
    · exact Or.inr ⟨rfl, h.2, h.1⟩
    · exact Or.inl rfl
  unfold applyStepRamp
  rw [if_pos hb]
  dsimp only
  exact hgen _

/-- C6 (amended): minimum enforcement after step flooring and ramp limiting.
(a) For current-based control a nonzero commanded current always satisfies
`cmdA ≥ minA`. (b) For power-based control a nonzero commanded power always
satisfies `cmdW ≥ minPW`. (c) For current-based control the watt form
`cmdW ≥ minPW` additionally needs `minPW ≤ minA * vFactor`, which the AC
bound quantisation guarantees; a DC ampere-controlled wallbox with a larger
configured `minPowerW` can be commanded a nonzero power below `minPW`
(see the counterexample). -/
theorem C6_minimum_enforcement (P : AllocParams) (rem : Option ℚ) (w : Wallbox) :
    (w.basis = .currentA → w.hasSetA = true →
      0 < (allocStep P rem w).1.cmdA → 0 < w.minA →
      w.minA ≤ (allocStep P rem w).1.cmdA) ∧
    (¬(w.basis = .currentA ∧ w.hasSetA = true) →
      0 < (allocStep P rem w).1.cmdW → 0 < w.minPW →
      w.minPW ≤ (allocStep P rem w).1.cmdW) ∧
    (w.basis = .currentA → w.hasSetA = true → w.minPW ≤ w.minA * w.vFactor →
      0 < (allocStep P rem w).1.cmdW → 0 < w.minPW →
      w.minPW ≤ (allocStep P rem w).1.cmdW) := by
  refine ⟨?_, ?_, ?_⟩
  · intro hb hs hpos hminA
    exact applyStepRamp_cmdA_min P w _ _ ⟨hb, hs⟩ hpos hminA
  · intro hb hpos hminP
    exact applyStepRamp_cmdW_min_else P w _ _ hb hpos hminP
  · intro hb hs hle hpos hminP
    have hdefW : (allocStep P rem w).1.cmdW =
        (applyStepRamp P w
          (convertTarget w (allocTargetW rem w).1 (allocTargetW rem w).2).1
          (convertTarget w (allocTargetW rem w).1 (allocTargetW rem w).2).2.1).1 := rfl
    rw [hdefW] at hpos ⊢
    rcases applyStepRamp_cmdW_eq_currentA P w
        (convertTarget w (allocTargetW rem w).1 (allocTargetW rem w).2).1
        (convertTarget w (allocTargetW rem w).1 (allocTargetW rem w).2).2.1
        ⟨hb, hs⟩ with hz | ⟨heq, hv, hca⟩
    · rw [hz] at hpos
      exact absurd hpos (lt_irrefl 0)
    · have hminA : 0 < w.minA := by
        by_contra hcon
        push_neg at hcon
        have : w.minA * w.vFactor ≤ 0 := mul_nonpos_of_nonpos_of_nonneg hcon (le_of_lt hv)
        linarith
      have hA := applyStepRamp_cmdA_min P w
        (convertTarget w (allocTargetW rem w).1 (allocTargetW rem w).2).1
        (convertTarget w (allocTargetW rem w).1 (allocTargetW rem w).2).2.1
        ⟨hb, hs⟩ hca hminA
      calc w.minPW ≤ w.minA * w.vFactor := hle
        _ ≤ (applyStepRamp P w
              (convertTarget w (allocTargetW rem w).1 (allocTargetW rem w).2).1
              (convertTarget w (allocTargetW rem w).1 (allocTargetW rem w).2).2.1).2 *
              w.vFactor :=
            mul_le_mul_of_nonneg_right hA (le_of_lt hv)
        _ = _ := heq.symm

/-- Ramp parameters with a per-tick ampere increase of 1 A. -/
def rampAParams : AllocParams :=
  { stepW := 0, stepA := 1/10, maxDeltaW := 0, maxDeltaA := 1 }

/-- A DC wallbox controlled in amperes with a configured minimum power of
10000 W (well above `minA * vFactor = 4140 W`), already commanding 10 A. -/
def dcMinPowerWallbox : Wallbox :=
  { safe := "dc2", enabled := true, online := true, charging := false,
    chargingSinceMs := 0, priority := 1,
    basis := .currentA, chargerType := .DC, hasSetA := true,
    minPW := 10000, maxPW := 1000000, minA := 6, maxA := 16, vFactor := 690,
    prevCmdW := none, prevCmdA := some 10 }

/-- C6 (counterexample): with 20000 W remaining, the target passes the
minimum-power check (16 A = 11040 W ≥ 10000 W), but the ampere ramp then
cuts it to 11 A = 7590 W — a nonzero command strictly below the wallbox's
`minPW = 10000 W`, with no post-ramp watt check in the current branch. -/
theorem C6_min_power_violated_cex :
    0 < (allocStep rampAParams (some 20000) dcMinPowerWallbox).1.cmdW ∧
      (allocStep rampAParams (some 20000) dcMinPowerWallbox).1.cmdW <
        dcMinPowerWallbox.minPW := by
  decide

/-- C6 (witness): the amended theorem at a concrete AC wallbox with 5000 W
remaining; the commanded current 7.2 A is at least the 6.1 A minimum. -/
theorem C6_minimum_enforcement_witness :
    acWitnessWallbox.minA ≤
      (allocStep defaultStepParams (some 5000) acWitnessWallbox).1.cmdA :=
  (C6_minimum_enforcement defaultStepParams (some 5000) acWitnessWallbox).1
    rfl rfl (by decide) (by decide)

end NexoWatt

namespace NexoWatt

/-! ### Claims C7 and C10: ramp limiting -/

theorem floorToStep_zero (s : ℚ) : floorToStep 0 s = 0 := by
  unfold floorToStep
  split_ifs with h
  · rfl
  · rw [zero_div]
    simp

theorem clampQ_zero {hi : ℚ} (h : 0 ≤ hi) : clampQ 0 0 hi = 0 := by
  unfold clampQ
  rw [max_self, min_eq_right h]

theorem floorTenth_zero : floorTenth 0 = 0 := by
  unfold floorTenth
  rw [zero_mul]
  simp

/-- `rampUp` of a zero target is zero whenever the previous command (if any)
is nonnegative. -/
theorem rampUp_zero (prev : Option ℚ) (d : ℚ)
    (hprev : ∀ q, prev = some q → 0 ≤ q) : rampUp prev 0 d = 0 := by
  cases prev with
  | none => exact rampUp_none 0 d
  | some p => exact rampUp_of_le d (hprev p rfl)

theorem aRaw_zero (w : Wallbox) (hmaxA : 0 ≤ w.maxA) : aRaw w 0 = 0 := by
  unfold aRaw
  rw [if_neg (by
    rintro ⟨hc, -⟩
    exact lt_irrefl 0 hc)]
  exact clampQ_zero hmaxA

theorem aRounded_zero (w : Wallbox) (hmaxA : 0 ≤ w.maxA) : aRounded w 0 = 0 := by
  unfold aRounded
  rw [aRaw_zero w hmaxA, floorTenth_zero]
  dsimp only
  rw [if_neg (show ¬(0 < (0:ℚ) ∧ (0:ℚ) < w.minA) from fun h => lt_irrefl 0 h.1)]
  exact ite_self 0

/-- With zero remaining budget the allocation target is zero. -/
theorem allocTargetW_zero (w : Wallbox) : (allocTargetW (some 0) w).1 = 0 := by
  unfold allocTargetW
  split_ifs <;> rfl

/-- The current branch of the step/ramp stage maps a zero ampere target to
zero commands, provided the remembered command is nonnegative. -/
theorem applyStepRamp_zero_currentA (P : AllocParams) (w : Wallbox) (tW : ℚ)
    (hb : w.basis = .currentA ∧ w.hasSetA = true) (hmaxA : 0 ≤ w.maxA)
    (hpA : ∀ q, w.prevCmdA = some q → 0 ≤ q) :
    applyStepRamp P w tW 0 = (0, 0) := by
  unfold applyStepRamp
  rw [if_pos hb]
  dsimp only
  simp only [floorToStep_zero, clampQ_zero hmaxA, ite_self,
    rampUp_zero w.prevCmdA P.maxDeltaA hpA, zero_mul]

/-- The power branch of the step/ramp stage maps a zero watt target to zero
commands, provided the remembered command is nonnegative. -/
theorem applyStepRamp_zero_else (P : AllocParams) (w : Wallbox) (tA : ℚ)
    (hb : ¬(w.basis = .currentA ∧ w.hasSetA = true))
    (hpW : ∀ q, w.prevCmdW = some q → 0 ≤ q) :
    applyStepRamp P w 0 tA = (0, 0) := by
  unfold applyStepRamp
  rw [if_neg hb]
  dsimp only
  simp only [floorToStep_zero, ite_self,
    rampUp_zero w.prevCmdW P.maxDeltaW hpW, zero_div]

/-- C7: ramp asymmetry of the allocation pipeline.
(1) Power-based control: the commanded power never exceeds the previous
commanded power plus `maxDeltaWPerTick`. (2) Current-based control: the
commanded current never exceeds the previous commanded current plus
`maxDeltaAPerTick`. (3) A decrease is never rate-limited by `rampUp`.
(4) With zero remaining budget the commanded power and current drop to 0 in
that single tick, regardless of ramp settings. -/
theorem C7_ramp_asymmetry :
    (∀ (P : AllocParams) (rem : Option ℚ) (w : Wallbox) (p : ℚ),
      ¬(w.basis = .currentA ∧ w.hasSetA = true) → w.prevCmdW = some p → 0 ≤ p →
      0 < P.maxDeltaW → (allocStep P rem w).1.cmdW ≤ p + P.maxDeltaW) ∧
    (∀ (P : AllocParams) (rem : Option ℚ) (w : Wallbox) (p : ℚ),
      w.basis = .currentA → w.hasSetA = true → w.prevCmdA = some p → 0 ≤ p →
      0 < P.maxDeltaA → (allocStep P rem w).1.cmdA ≤ p + P.maxDeltaA) ∧
    (∀ (p t d : ℚ), t ≤ p → rampUp (some p) t d = t) ∧
    (∀ (P : AllocParams) (w : Wallbox), 0 ≤ w.maxA →
      (∀ q, w.prevCmdW = some q → 0 ≤ q) → (∀ q, w.prevCmdA = some q → 0 ≤ q) →
      (allocStep P (some 0) w).1.cmdW = 0 ∧ (allocStep P (some 0) w).1.cmdA = 0) := by
  refine ⟨?_, ?_, ?_, ?_⟩
  · intro P rem w p hb hprev hp hd
    show (applyStepRamp P w _ _).1 ≤ p + P.maxDeltaW
    unfold applyStepRamp
    rw [if_neg hb]
    dsimp only
    rw [hprev]
    have hle := rampUp_some_le_add (p := p)
      (t := if 0 < floorToStep
          (convertTarget w (allocTargetW rem w).1 (allocTargetW rem w).2).1 P.stepW ∧
          0 < w.minPW ∧
          floorToStep
            (convertTarget w (allocTargetW rem w).1 (allocTargetW rem w).2).1 P.stepW <
            w.minPW
        then 0
        else floorToStep
          (convertTarget w (allocTargetW rem w).1 (allocTargetW rem w).2).1 P.stepW)
      (d := P.maxDeltaW) hd
    split_ifs with h2 h4 h4' <;> first | linarith | split_ifs at hle <;> linarith
  · intro P rem w p hb hs hprev hp hd
    show (applyStepRamp P w _ _).2 ≤ p + P.maxDeltaA
    unfold applyStepRamp
    rw [if_pos ⟨hb, hs⟩]
    dsimp only
    rw [hprev]
    have hle := rampUp_some_le_add (p := p)
      (t := if 0 < clampQ (floorToStep
            (convertTarget w (allocTargetW rem w).1 (allocTargetW rem w).2).2.1 P.stepA)
            0 w.maxA ∧
          0 < w.minA ∧
          clampQ (floorToStep
            (convertTarget w (allocTargetW rem w).1 (allocTargetW rem w).2).2.1 P.stepA)
            0 w.maxA < w.minA
        then 0
        else clampQ (floorToStep
          (convertTarget w (allocTargetW rem w).1 (allocTargetW rem w).2).2.1 P.stepA)
          0 w.maxA)
      (d := P.maxDeltaA) hd
    split_ifs with h3 h5 h5' <;> first | linarith | split_ifs at hle <;> linarith
  · intro p t d h
    exact rampUp_of_le d h
  · intro P w hmaxA hpW hpA
    have htgt : (allocTargetW (some 0) w).1 = 0 := allocTargetW_zero w
    by_cases hcb : w.basis = .currentA ∧ w.hasSetA = true
    · have hconv :
          (convertTarget w (allocTargetW (some 0) w).1 (allocTargetW (some 0) w).2).2.1 = 0 := by
        rw [htgt]
        unfold convertTarget
        rw [if_pos hcb]
        dsimp only
        rw [aRounded_zero w hmaxA, zero_mul]
        rw [if_neg (by
          rintro ⟨hc, -⟩
          exact lt_irrefl 0 hc)]
      have hzero := applyStepRamp_zero_currentA P w
        (convertTarget w (allocTargetW (some 0) w).1 (allocTargetW (some 0) w).2).1
        hcb hmaxA hpA
      constructor
      · show (applyStepRamp P w _ _).1 = 0
        rw [hconv, hzero]
      · show (applyStepRamp P w _ _).2 = 0
        rw [hconv, hzero]
    · have hconv :
          (convertTarget w (allocTargetW (some 0) w).1 (allocTargetW (some 0) w).2).1 = 0 := by
        rw [htgt]
        unfold convertTarget
        rw [if_neg hcb]
        split_ifs <;> rfl
      have hzero := applyStepRamp_zero_else P w
        (convertTarget w (allocTargetW (some 0) w).1 (allocTargetW (some 0) w).2).2.1
        hcb hpW
      constructor
      · show (applyStepRamp P w _ _).1 = 0
        rw [hconv, hzero]
      · show (applyStepRamp P w _ _).2 = 0
        rw [hconv, hzero]

end NexoWatt

namespace NexoWatt

/-- The AC witness wallbox with remembered previous commands (7 A / 4830 W). -/
def acRampWallbox : Wallbox :=
  { acWitnessWallbox with prevCmdA := some 7, prevCmdW := some 4830 }

/-- C7 (witness): the ramp-asymmetry theorem at a concrete ampere-controlled
wallbox with previous command 7 A and `maxDeltaAPerTick = 1 A`, and the
drop-to-zero clause with a zero budget. -/
theorem C7_ramp_asymmetry_witness :
    (allocStep rampAParams (some 15000) acRampWallbox).1.cmdA ≤ 7 + rampAParams.maxDeltaA ∧
      rampUp (some 5) 2 3 = 2 ∧
      (allocStep rampAParams (some 0) acRampWallbox).1.cmdW = 0 :=
  ⟨C7_ramp_asymmetry.2.1 rampAParams (some 15000) acRampWallbox 7 rfl rfl rfl
      (by decide) (by decide),
    C7_ramp_asymmetry.2.2.1 5 2 3 (by decide),
    (C7_ramp_asymmetry.2.2.2 rampAParams acRampWallbox (by decide)
      (fun q hq => by injection hq with h; rw [← h]; decide)
      (fun q hq => by injection hq with h; rw [← h]; decide)).1⟩

/-- The ramp limiter falls through when no previous command exists: the two
step/ramp stages agree for any two delta configurations. -/
theorem applyStepRamp_no_prev (P P' : AllocParams) (w : Wallbox) (tW tA : ℚ)
    (hW : w.prevCmdW = none) (hA : w.prevCmdA = none)
    (hsW : P.stepW = P'.stepW) (hsA : P.stepA = P'.stepA) :
    applyStepRamp P w tW tA = applyStepRamp P' w tW tA := by
  unfold applyStepRamp
  rw [hW, hA]
  simp only [rampUp_none, hsW, hsA]

/-- C10: `rampUp` with no finite previous value returns the target
unchanged, so on the first processed tick after a cold start (empty command
memory) the allocation result does not depend on the configured ramp deltas
at all: the first command jumps directly to the full allocated target. -/
theorem C10_cold_start_no_ramp :
    (∀ (t d : ℚ), rampUp none t d = t) ∧
    (∀ (P P' : AllocParams) (rem : Option ℚ) (w : Wallbox),
      w.prevCmdW = none → w.prevCmdA = none →
      P.stepW = P'.stepW → P.stepA = P'.stepA →
      allocStep P rem w = allocStep P' rem w) := by
  refine ⟨rampUp_none, ?_⟩
  intro P P' rem w hW hA hsW hsA
  unfold allocStep
  dsimp only
  rw [applyStepRamp_no_prev P P' w _ _ hW hA hsW hsA]

/-- C10 (witness): a cold-start DC wallbox allocates identically under
`maxDelta = 0` and under `maxDeltaW = 123, maxDeltaA = 5`. -/
theorem C10_cold_start_no_ramp_witness :
    allocStep defaultStepParams (some 9000) dcRetryWallbox =
      allocStep { stepW := 0, stepA := 1/10, maxDeltaW := 123, maxDeltaA := 5 }
        (some 9000) dcRetryWallbox :=
  C10_cold_start_no_ramp.2 defaultStepParams
    { stepW := 0, stepA := 1/10, maxDeltaW := 123, maxDeltaA := 5 }
    (some 9000) dcRetryWallbox rfl rfl rfl rfl

end NexoWatt

namespace NexoWatt

/-! ### Peak shaving: limits, predicates and state machine (peak-shaving.js) -/

inductive PhaseMode where
  | off
  | info
  | enforce
  deriving DecidableEq, Repr

inductive PSStatus where
  | inactive
  | pending_on
  | active
  | pending_off
  deriving DecidableEq, Repr

/-- The per-tick limit/measurement snapshot the violation and release
predicates read (tick lines 196-260). `effPower` is `null` when neither the
averaged nor the raw grid power is available. -/
structure PSMeas where
  effPower : Option ℚ
  l1 : Option ℚ
  l2 : Option ℚ
  l3 : Option ℚ
  deriving DecidableEq, Repr

structure PSLimits where
  limitW : ℚ
  hysteresisW : ℚ
  maxPhaseA : ℚ
  phaseMode : PhaseMode
  deriving DecidableEq, Repr

/-- Lines 216-232: the worst positive per-phase excess over `maxPhaseA`
across the available phase measurements (0 when no phase is measured or no
positive phase limit is configured). -/
def worstPhaseOverA (m : PSMeas) (maxPhaseA : ℚ) : ℚ :=
  let ph := [m.l1, m.l2, m.l3].filterMap id
  if ph ≠ [] ∧ 0 < maxPhaseA then
    let best := ph.foldl (fun b v => if b < v - maxPhaseA then v - maxPhaseA else b) 0
    if 0 < best then best else 0
  else 0

/-- Line 240: `overW` (0 without a positive power limit or power reading). -/
def overW (L : PSLimits) (m : PSMeas) : ℚ :=
  match m.effPower with
  | some e => if 0 < L.limitW then e - L.limitW else 0
  | none => 0

def powerViolation (L : PSLimits) (m : PSMeas) : Bool := decide (0 < overW L m)

def phaseViolation (L : PSLimits) (m : PSMeas) : Bool :=
  decide (0 < worstPhaseOverA m L.maxPhaseA)

def hasPowerLimit (L : PSLimits) : Bool := decide (0 < L.limitW)

/-- Line 244: phase measurements are considered in `info` and `enforce`. -/
def considerPhase (L : PSLimits) : Bool :=
  decide (L.phaseMode = .info) || decide (L.phaseMode = .enforce)

/-- Line 245: only `enforce` can activate shaving without a power limit. -/
def canActivateFromPhaseOnly (L : PSLimits) : Bool := decide (L.phaseMode = .enforce)

/-- Lines 248-250: the activation predicate. -/
def violationNow (L : PSLimits) (m : PSMeas) : Bool :=
  (hasPowerLimit L && powerViolation L m) ||
   (considerPhase L && phaseViolation L m &&
     (hasPowerLimit L || canActivateFromPhaseOnly L))

/-- Line 258: power side of the release condition. -/
def underPowerRelease (L : PSLimits) (m : PSMeas) : Bool :=
  if hasPowerLimit L then
    match m.effPower with
    | some e => decide (e ≤ L.limitW - L.hysteresisW)
    | none => true
  else true

/-- Line 259: phase side of the release condition. -/
def underPhaseRelease (L : PSLimits) (m : PSMeas) : Bool :=
  if considerPhase L then !(phaseViolation L m) else true

/-- Line 260: release requires both clearances. -/
def releaseConditionNow (L : PSLimits) (m : PSMeas) : Bool :=
  underPowerRelease L m && underPhaseRelease L m

/-- The module state fields driving the machine. -/
structure PSState where
  status : PSStatus
  pendingSince : ℚ
  activeSince : ℚ
  deriving DecidableEq, Repr

/-- The hysteresis/delay state machine of tick lines 262-296. Delays are in
seconds, timestamps in milliseconds. -/
def psStep (actDelayS relDelayS : ℚ) (now : ℚ) (violation release : Bool)
    (s : PSState) : PSState :=
  match s.status with
  | .inactive =>
    if violation then
      if 0 < actDelayS then { s with status := .pending_on, pendingSince := now }
      else { status := .active, pendingSince := now, activeSince := now }
    else s
  | .pending_on =>
    if violation = false then { s with status := .inactive, pendingSince := 0 }
    else if actDelayS * 1000 ≤ now - s.pendingSince then
      { s with status := .active, activeSince := now }
    else s
  | .active =>
    if release then
      if 0 < relDelayS then { s with status := .pending_off, pendingSince := now }
      else { s with status := .inactive, pendingSince := 0 }
    else s
  | .pending_off =>
    if release = false then { s with status := .active, pendingSince := 0 }
    else if relDelayS * 1000 ≤ now - s.pendingSince then
      { s with status := .inactive, pendingSince := 0 }
    else s

/-- One machine step driven by the computed predicates. -/
def psStepMeas (actDelayS relDelayS : ℚ) (L : PSLimits) (m : PSMeas) (now : ℚ)
    (s : PSState) : PSState :=
  psStep actDelayS relDelayS now (violationNow L m) (releaseConditionNow L m) s

/-- A run of the machine over an input stream of
(timestamp, violationNow, releaseConditionNow) tick inputs. -/
def psRun (actD relD : ℚ) (inp : ℕ → ℚ × Bool × Bool) (s0 : PSState) : ℕ → PSState
  | 0 => s0
  | n + 1 =>
    psStep actD relD (inp n).1 (inp n).2.1 (inp n).2.2 (psRun actD relD inp s0 n)

/-- A run of the machine over a stream of measurements. -/
def psRunMeas (actD relD : ℚ) (L : PSLimits) (inp : ℕ → PSMeas × ℚ) (s0 : PSState) :
    ℕ → PSState
  | 0 => s0
  | n + 1 =>
    psStepMeas actD relD L (inp n).1 (inp n).2 (psRunMeas actD relD L inp s0 n)

end NexoWatt

namespace NexoWatt

/-! ### Claim C3: hysteresis activation -/

/-- While the machine has never been active, its status is `inactive` or
`pending_on` (with a positive activation delay). -/
theorem psRun_no_active (actD relD : ℚ) (inp : ℕ → ℚ × Bool × Bool) (s0 : PSState)
    (hd : 0 < actD) (h0 : s0.status = .inactive) :
    ∀ n, (∀ i, i ≤ n → (psRun actD relD inp s0 i).status ≠ .active) →
      (psRun actD relD inp s0 n).status = .inactive ∨
        (psRun actD relD inp s0 n).status = .pending_on := by
  intro n
  induction n with
  | zero => intro _; exact Or.inl h0
  | succ n ih =>
    intro h
    have hn := ih (fun i hi => h i (Nat.le_succ_of_le hi))
    have hstep : psRun actD relD inp s0 (n+1) =
        psStep actD relD (inp n).1 (inp n).2.1 (inp n).2.2 (psRun actD relD inp s0 n) := rfl
    rcases hn with h1 | h1
    · rw [hstep]
      unfold psStep
      rw [h1]
      dsimp only
      split_ifs with hv
      · exact Or.inr rfl
      · exact Or.inl h1
    · rw [hstep]
      unfold psStep
      rw [h1]
      dsimp only
      split_ifs with hv helap
      · exact Or.inl rfl
      · exfalso
        refine h (n+1) (le_refl _) ?_
        rw [hstep]
        unfold psStep
        rw [h1]
        dsimp only
        rw [if_neg hv, if_pos helap]
      · exact Or.inr h1

/-- A `pending_on` state originates from an `inactive` state at the time
recorded in `pendingSince`, with `violationNow` true on every tick since. -/
theorem psRun_pending_origin (actD relD : ℚ) (inp : ℕ → ℚ × Bool × Bool) (s0 : PSState)
    (hd : 0 < actD) (h0 : s0.status = .inactive) :
    ∀ n, (psRun actD relD inp s0 n).status = .pending_on →
      ∃ j, j < n ∧ (psRun actD relD inp s0 j).status = .inactive ∧
        (psRun actD relD inp s0 n).pendingSince = (inp j).1 ∧
        ∀ i, j ≤ i → i < n → (inp i).2.1 = true := by
  intro n
  induction n with
  | zero =>
    intro hc
    have hc0 : s0.status = PSStatus.pending_on := hc
    rw [h0] at hc0
    cases hc0
  | succ n ih =>
    intro hc
    have hstep : psRun actD relD inp s0 (n+1) =
        psStep actD relD (inp n).1 (inp n).2.1 (inp n).2.2 (psRun actD relD inp s0 n) := rfl
    cases hstat : (psRun actD relD inp s0 n).status with
    | inactive =>
      rw [hstep] at hc ⊢
      unfold psStep at hc ⊢
      rw [hstat] at hc ⊢
      dsimp only at hc ⊢
      split_ifs at hc ⊢ with hv
      · refine ⟨n, Nat.lt_succ_self n, hstat, rfl, ?_⟩
        intro i hji hik
        have : i = n := le_antisymm (Nat.lt_succ_iff.mp hik) hji
        subst this
        exact hv
      · rw [hstat] at hc
        exact absurd hc (by decide)
    | pending_on =>
      rw [hstep] at hc ⊢
      unfold psStep at hc ⊢
      rw [hstat] at hc ⊢
      dsimp only at hc ⊢
      split_ifs at hc ⊢ with hv helap
      obtain ⟨j, hj, hjin, hps, hall⟩ := ih hstat
      refine ⟨j, Nat.lt_succ_of_lt hj, hjin, hps, ?_⟩
      intro i hji hik
      rcases Nat.lt_or_ge i n with hik' | hik'
      · exact hall i hji hik'
      · have : i = n := le_antisymm (Nat.lt_succ_iff.mp hik) hik'
        subst this
        cases hb : (inp i).2.1
        · exact absurd hb hv
        · rfl
    | active =>
      rw [hstep] at hc
      unfold psStep at hc
      rw [hstat] at hc
      dsimp only at hc
      split_ifs at hc
      rw [hstat] at hc
      exact absurd hc (by decide)
    | pending_off =>
      rw [hstep] at hc
      unfold psStep at hc
      rw [hstat] at hc
      dsimp only at hc
      split_ifs at hc
      rw [hstat] at hc
      exact absurd hc (by decide)

/-- C3: with a positive activation delay the machine never becomes active
unless `violationNow` held on every tick since the `pendingSince` tick and
at least `activateDelaySeconds * 1000` ms have elapsed since then; and in
`pending_on`, a single tick without a violation returns the machine to
`inactive` and resets `pendingSince` to 0, so the delay restarts from zero. -/
theorem C3_hysteresis_activation :
    (∀ (actD relD now : ℚ) (v r : Bool) (s : PSState),
      s.status = .pending_on → v = false →
      psStep actD relD now v r s = { s with status := .inactive, pendingSince := 0 }) ∧
    (∀ (actD relD : ℚ) (inp : ℕ → ℚ × Bool × Bool) (s0 : PSState) (k : ℕ),
      0 < actD → s0.status = .inactive →
      (∀ i, i ≤ k → (psRun actD relD inp s0 i).status ≠ .active) →
      (psRun actD relD inp s0 (k+1)).status = .active →
      ∃ j, j ≤ k ∧ (psRun actD relD inp s0 j).status = .inactive ∧
        (∀ i, j ≤ i → i ≤ k → (inp i).2.1 = true) ∧
        actD * 1000 ≤ (inp k).1 - (inp j).1) := by
  constructor
  · intro actD relD now v r s hs hv
    unfold psStep
    rw [hs, hv]
    dsimp only
    rw [if_pos rfl]
  · intro actD relD inp s0 k hd h0 hprev hact
    have hk := psRun_no_active actD relD inp s0 hd h0 k hprev
    have hstep : psRun actD relD inp s0 (k+1) =
        psStep actD relD (inp k).1 (inp k).2.1 (inp k).2.2 (psRun actD relD inp s0 k) := rfl
    rcases hk with hin | hpend
    · exfalso
      rw [hstep] at hact
      unfold psStep at hact
      rw [hin] at hact
      dsimp only at hact
      split_ifs at hact
      rw [hin] at hact
      exact absurd hact (by decide)
    · rw [hstep] at hact
      unfold psStep at hact
      rw [hpend] at hact
      dsimp only at hact
      split_ifs at hact with hv helap
      · obtain ⟨j, hjk, hjin, hps, hall⟩ :=
          psRun_pending_origin actD relD inp s0 hd h0 k hpend
        refine ⟨j, Nat.le_of_lt hjk, hjin, ?_, ?_⟩
        · intro i hji hik
          rcases Nat.lt_or_ge i k with hik' | hik'
          · exact hall i hji hik'
          · have : i = k := le_antisymm hik hik'
            subst this
            cases hb : (inp i).2.1
            · exact absurd hb hv
            · rfl
        · rw [hps] at helap
          exact helap
      · rw [hpend] at hact
        exact absurd hact (by decide)

/-- A concrete activation trace: violation on every tick, timestamps 1 s
apart, activation delay 2 s — activation happens at tick 3 with origin 0. -/
def c3Stream (n : ℕ) : ℚ × Bool × Bool := ((1000 * n : ℚ), true, false)

/-- C3 (witness): both clauses of the hysteresis claim at concrete inputs. -/
theorem C3_hysteresis_activation_witness :
    (psStep 2 0 5 false false
        { status := PSStatus.pending_on, pendingSince := 3, activeSince := 4 } =
      { status := PSStatus.inactive, pendingSince := 0, activeSince := 4 }) ∧
    ∃ j, j ≤ 2 ∧
      (psRun 2 0 c3Stream { status := PSStatus.inactive, pendingSince := 0, activeSince := 0 } j).status
        = PSStatus.inactive ∧
      (∀ i, j ≤ i → i ≤ 2 → (c3Stream i).2.1 = true) ∧
      2 * 1000 ≤ (c3Stream 2).1 - (c3Stream j).1 :=
  ⟨C3_hysteresis_activation.1 2 0 5 false false _ rfl rfl,
   C3_hysteresis_activation.2 2 0 c3Stream
     { status := PSStatus.inactive, pendingSince := 0, activeSince := 0 } 2
     (by decide) rfl (by decide) (by decide)⟩

/-! ### Claim C4: release requires dual clearance -/

/-- In `enforce` mode a persisting phase violation vetoes release. -/
theorem releaseConditionNow_enforce_phase (L : PSLimits) (m : PSMeas)
    (hm : L.phaseMode = .enforce) (hv : phaseViolation L m = true) :
    releaseConditionNow L m = false := by
  simp [releaseConditionNow, underPhaseRelease, considerPhase, hm, hv]

/-- An active machine stays put on a tick without release. -/
theorem psStep_active_stay (a r now : ℚ) (v : Bool) (s : PSState)
    (hs : s.status = .active) : psStep a r now v false s = s := by
  unfold psStep
  rw [hs]
  dsimp only
  rw [if_neg (show ¬(false = true) from Bool.false_ne_true)]

/-- C4: `releaseConditionNow` is the conjunction of the power clearance and
the phase clearance; in `enforce` mode a persisting phase violation forces it
false regardless of the power reading; hence an active machine remains
active across any stretch of ticks on which the phase violation persists. -/
theorem C4_release_dual_clearance :
    (∀ (L : PSLimits) (m : PSMeas),
      releaseConditionNow L m = (underPowerRelease L m && underPhaseRelease L m)) ∧
    (∀ (L : PSLimits) (m : PSMeas),
      L.phaseMode = .enforce → phaseViolation L m = true →
      releaseConditionNow L m = false) ∧
    (∀ (actD relD : ℚ) (L : PSLimits) (inp : ℕ → PSMeas × ℚ) (s0 : PSState),
      L.phaseMode = .enforce →
      ∀ n k, (psRunMeas actD relD L inp s0 n).status = .active →
        (∀ i, n ≤ i → i < n + k → phaseViolation L (inp i).1 = true) →
        (psRunMeas actD relD L inp s0 (n + k)).status = .active) := by
  refine ⟨fun L m => rfl, fun L m hm hv => releaseConditionNow_enforce_phase L m hm hv, ?_⟩
  intro actD relD L inp s0 hm n k
  induction k with
  | zero => intro hs _; exact hs
  | succ k ih =>
    intro hs hall
    have hk : (psRunMeas actD relD L inp s0 (n + k)).status = .active :=
      ih hs (fun i h1 h2 => hall i h1 (Nat.lt_succ_of_lt h2))
    have hstep : psRunMeas actD relD L inp s0 (n + (k+1)) =
        psStepMeas actD relD L (inp (n+k)).1 (inp (n+k)).2
          (psRunMeas actD relD L inp s0 (n + k)) := rfl
    have hrel : releaseConditionNow L (inp (n+k)).1 = false :=
      releaseConditionNow_enforce_phase L (inp (n+k)).1 hm
        (hall (n+k) (Nat.le_add_right n k) (Nat.lt_succ_self _))
    rw [hstep]
    unfold psStepMeas
    rw [hrel, psStep_active_stay _ _ _ _ _ hk]
    exact hk

/-- Limits and measurement demonstrating C4: power is 2000 W under the
9000 W release threshold, yet phase L1 carries 20 A against a 16 A cap. -/
def c4Limits : PSLimits :=
  { limitW := 10000, hysteresisW := 1000, maxPhaseA := 16, phaseMode := .enforce }

def c4Meas : PSMeas := { effPower := some 2000, l1 := some 20, l2 := none, l3 := none }

/-- C4 (witness): with power well under `limitW - hysteresisW` (the power
clearance holds) but a 20 A phase reading against a 16 A cap, release is
vetoed and an active machine is still active two ticks later. -/
theorem C4_release_dual_clearance_witness :
    underPowerRelease c4Limits c4Meas = true ∧
    releaseConditionNow c4Limits c4Meas = false ∧
    (psRunMeas 0 0 c4Limits (fun _ => (c4Meas, 0))
      { status := PSStatus.active, pendingSince := 0, activeSince := 0 } (0 + 2)).status
      = PSStatus.active :=
  ⟨by decide,
   C4_release_dual_clearance.2.1 c4Limits c4Meas rfl (by decide),
   C4_release_dual_clearance.2.2 0 0 c4Limits (fun _ => (c4Meas, 0))
     { status := PSStatus.active, pendingSince := 0, activeSince := 0 } rfl 0 2 rfl
     (fun i _ _ => show phaseViolation c4Limits c4Meas = true by decide)⟩

/-! ### Claim C5: the dynamic power limit -/

/-- Lines 203-204: the capped minimum of `maxPowerW` and `allowedPowerW`,
`none` standing for positive infinity (a non-positive or missing cap is
unbounded). -/
def dynMinCap (maxPowerW : ℚ) (allowedPowerW : Option ℚ) : Option ℚ :=
  let baseMax : Option ℚ := if 0 < maxPowerW then some maxPowerW else none
  let allowed : Option ℚ :=
    match allowedPowerW with
    | some a => if 0 < a then some a else none
    | none => none
  match baseMax, allowed with
  | some b, some a => some (min b a)
  | some b, none => some b
  | none, some a => some a
  | none, none => none

/-- Lines 205-206: `limitW = Math.min(baseMax, allowed) - Math.max(0, reserveW)`
with only the non-finite case forced to 0 (`Number.isFinite` check); a
negative finite value passes through unchanged. -/
def computeDynamicLimit (maxPowerW : ℚ) (allowedPowerW : Option ℚ) (reserveW : ℚ) : ℚ :=
  match dynMinCap maxPowerW allowedPowerW with
  | some v => v - max 0 reserveW
  | none => 0

/-- Line 341: the adapter publishes `limitW || 0`, which for a finite number
only maps 0 to 0 and keeps every nonzero value, negative ones included. -/
def publishedLimitW (limitW : ℚ) : ℚ := if limitW = 0 then 0 else limitW

/-- The limit as the spec words it (modelled from the spec, for comparison):
the same capped minimum minus the reserve, with a negative or non-finite
value clamped to 0. -/
def specDynamicLimitW (maxPowerW : ℚ) (allowedPowerW : Option ℚ) (reserveW : ℚ) : ℚ :=
  match dynMinCap maxPowerW allowedPowerW with
  | some v => max 0 (v - max 0 reserveW)
  | none => 0

/-- C5 (counterexample): `maxPowerW = 1000`, no dynamic allowance, a 2000 W
reserve: the computed limit is -1000 W, and the published `limitW || 0` is
still -1000 W, where the spec's clamped formula gives 0. -/
theorem C5_negative_limit_cex :
    computeDynamicLimit 1000 none 2000 = -1000 ∧
    publishedLimitW (computeDynamicLimit 1000 none 2000) = -1000 ∧
    specDynamicLimitW 1000 none 2000 = 0 := by decide

/-- C5: when both caps are unbounded the dynamic limit is 0 (the
`Number.isFinite` guard); when the capped minimum is a finite `v` the limit
is exactly `v - max 0 reserveW`, and the published value equals the computed
value (no clamping on publication); the spec's clamped formula agrees with
the code exactly when the computed value is nonnegative. -/
theorem C5_dynamic_limit :
    (∀ (mp res : ℚ) (ap : Option ℚ),
      dynMinCap mp ap = none → computeDynamicLimit mp ap res = 0) ∧
    (∀ (mp res v : ℚ) (ap : Option ℚ),
      dynMinCap mp ap = some v → computeDynamicLimit mp ap res = v - max 0 res) ∧
    (∀ (mp res : ℚ) (ap : Option ℚ),
      publishedLimitW (computeDynamicLimit mp ap res) = computeDynamicLimit mp ap res) ∧
    (∀ (mp res : ℚ) (ap : Option ℚ),
      0 ≤ computeDynamicLimit mp ap res →
      computeDynamicLimit mp ap res = specDynamicLimitW mp ap res) := by
  refine ⟨?_, ?_, ?_, ?_⟩
  · intro mp res ap h
    unfold computeDynamicLimit
    rw [h]
  · intro mp res v ap h
    unfold computeDynamicLimit
    rw [h]
  · intro mp res ap
    unfold publishedLimitW
    by_cases h : computeDynamicLimit mp ap res = 0
    · rw [if_pos h, h]
    · rw [if_neg h]
  · intro mp res ap h
    unfold computeDynamicLimit at h ⊢
    unfold specDynamicLimitW
    cases hm : dynMinCap mp ap with
    | none => rfl
    | some v =>
      rw [hm] at h
      have h' : (0:ℚ) ≤ v - max 0 res := h
      exact (max_eq_right h').symm

/-- C5 (witness): the three hypothesis-bearing clauses at concrete inputs:
no finite cap gives limit 0; caps 5000/4000 with reserve 500 give
4000 - 500; the nonnegative case agrees with the spec formula. -/
theorem C5_dynamic_limit_witness :
    computeDynamicLimit 0 none 500 = 0 ∧
    computeDynamicLimit 5000 (some 4000) 500 = 4000 - max 0 500 ∧
    computeDynamicLimit 5000 (some 4000) 500 = specDynamicLimitW 5000 (some 4000) 500 :=
  ⟨C5_dynamic_limit.1 0 500 none rfl,
   C5_dynamic_limit.2.1 5000 500 4000 (some 4000) (by decide),
   C5_dynamic_limit.2.2.2 5000 500 (some 4000) (by decide)⟩

/-! ### Datapoint registry (datapoints.js) and claim C9 -/

/-- A cached ioBroker state value as JavaScript sees it: a number, a string
that `Number(...)` coerces to a finite number (the empty string coerces
to 0), a string it does not, a boolean, `null`, `undefined`, or `NaN`. -/
inductive JsVal where
  | num (q : ℚ)
  | strNum (q : ℚ)
  | strNaN
  | boolV (b : Bool)
  | nullV
  | undef
  | nanV
  deriving DecidableEq, Repr

/-- JavaScript `Number(raw)` followed by the `Number.isFinite` check:
`some q` when the coercion yields a finite number. `Number(null) = 0` and
`Number(true) = 1` are the coercions relevant to C9. -/
def jsToNumber : JsVal → Option ℚ
  | .num q => some q
  | .strNum q => some q
  | .strNaN => none
  | .boolV b => some (if b then 1 else 0)
  | .nullV => some 0
  | .undef => none
  | .nanV => none

/-- A normalized registry entry (upsert lines 54-78): scale/offset default
to 1/0, min/max stay absent when not finite. -/
structure DpEntry where
  objectId : String
  scale : ℚ
  offset : ℚ
  invert : Bool
  minV : Option ℚ
  maxV : Option ℚ
  deriving DecidableEq, Repr

/-- One cache slot (`{val, ts}`); `ts` is a finite timestamp, with the
JS falsiness of `ts = 0` handled in `getAgeMs`. -/
structure CacheVal where
  val : JsVal
  ts : ℚ
  deriving DecidableEq, Repr

/-- The registry: `byKey` and `cacheByObjectId` as association lists. -/
structure Registry where
  byKey : List (String × DpEntry)
  cache : List (String × CacheVal)
  deriving DecidableEq, Repr

/-- `getEntry` (line 115): the mapping for a key, `none` when unregistered. -/
def getEntry (r : Registry) (k : String) : Option DpEntry :=
  List.lookup k r.byKey

/-- `getRaw` (lines 123-128): the cached raw value, JS `null` when the key
is unmapped or nothing is cached. -/
def getRaw (r : Registry) (k : String) : JsVal :=
  match getEntry r k with
  | none => JsVal.nullV
  | some e =>
    match List.lookup e.objectId r.cache with
    | some c => c.val
    | none => JsVal.nullV

/-- `getNumber` (lines 178-194): fallback without a mapping or when
`Number(raw)` is not finite; otherwise invert, scale/offset, then clamp. -/
def getNumber (r : Registry) (k : String) (fallback : Option ℚ) : Option ℚ :=
  match getEntry r k with
  | none => fallback
  | some e =>
    match jsToNumber (getRaw r k) with
    | none => fallback
    | some n =>
      let v0 := if e.invert then -n else n
      let v1 := v0 * e.scale + e.offset
      let v2 := match e.minV with | some mn => max mn v1 | none => v1
      let v3 := match e.maxV with | some mx => min mx v2 | none => v2
      some v3

/-- `getAgeMs` (lines 136-145): `none` is `+Infinity` — unmapped key, empty
cache, or a falsy timestamp (`!ts` catches `ts = 0`); otherwise the
nonnegative age. -/
def getAgeMs (r : Registry) (k : String) (now : ℚ) : Option ℚ :=
  match getEntry r k with
  | none => none
  | some e =>
    match List.lookup e.objectId r.cache with
    | none => none
    | some c =>
      if c.ts = 0 then none
      else some (if 0 ≤ now - c.ts then now - c.ts else 0)

/-- `isStale` (lines 155-160): an infinite age is stale; a non-positive
`maxAgeMs` never marks a finite age stale; otherwise strictly older. -/
def isStale (r : Registry) (k : String) (maxAgeMs now : ℚ) : Bool :=
  match getAgeMs r k now with
  | none => true
  | some age => if maxAgeMs ≤ 0 then false else decide (maxAgeMs < age)

/-- A mapped key whose object has no cached value yet. -/
def c9Entry : DpEntry :=
  { objectId := "obj.grid", scale := 1, offset := 0, invert := false,
    minV := none, maxV := none }

def c9Reg : Registry := { byKey := [("grid", c9Entry)], cache := [] }

/-- The same key with a cached non-numeric string. -/
def c9RegNaN : Registry :=
  { byKey := [("grid", c9Entry)],
    cache := [("obj.grid", { val := JsVal.strNaN, ts := 100 })] }

/-- C9 (counterexample): a mapped key with no cached value has raw value
`null`, which is not a finite number, yet `getNumber` returns `some 0`
instead of the `null` fallback: `Number(null) = 0` defeats the claim's
"never a zero manufactured" for the cached-raw-value half. -/
theorem C9_null_coerced_zero_cex :
    (getEntry c9Reg "grid").isSome = true ∧
    getRaw c9Reg "grid" = JsVal.nullV ∧
    getNumber c9Reg "grid" none = some 0 := by decide

/-- C9: a key with no registered mapping always yields the supplied
fallback, so a missing mapping is observable as no data and never as a
manufactured 0; with a mapping, the fallback is returned exactly when
JavaScript's `Number` coercion of the raw value is not finite — but that
coercion maps `null` (no cached value) to 0 and `true` to 1, so those raw
values produce numbers, not the fallback. -/
theorem C9_missing_mapping_fallback :
    (∀ (r : Registry) (k : String) (fb : Option ℚ),
      getEntry r k = none → getNumber r k fb = fb) ∧
    (∀ (r : Registry) (k : String) (fb : Option ℚ),
      jsToNumber (getRaw r k) = none → getNumber r k fb = fb) ∧
    jsToNumber JsVal.nullV = some 0 ∧
    jsToNumber (JsVal.boolV true) = some 1 := by
  refine ⟨?_, ?_, rfl, rfl⟩
  · intro r k fb h
    unfold getNumber
    rw [h]
  · intro r k fb h
    unfold getNumber
    cases he : getEntry r k with
    | none => rfl
    | some e =>
      rw [h]

/-- C9 (witness): the fallback clauses at concrete inputs — an empty
registry returns the fallback 5, and a cached non-numeric string returns
the fallback 7. -/
theorem C9_missing_mapping_fallback_witness :
    getNumber { byKey := [], cache := [] } "x" (some 5) = some 5 ∧
    getNumber c9RegNaN "grid" (some 7) = some 7 :=
  ⟨C9_missing_mapping_fallback.1 { byKey := [], cache := [] } "x" (some 5) rfl,
   C9_missing_mapping_fallback.2.1 c9RegNaN "grid" (some 7) (by decide)⟩

/-! ### Claim C8: actuator baselines, apply and restore
(peak-shaving.js lines 352-364, 405-558)

Registry reads (`dp.getNumber`, `dp.getBoolean`) are abstracted as resolved
`Option` fields on the actuator; `ℚ` division by zero yields 0 where JS
would produce NaN (no claim touches a zero `vFactor`). -/

inductive ActMode where
  | onOff
  | limitW
  | limitA
  deriving DecidableEq, Repr

/-- One normalized actuator row of the admin table (lines 409-421 / 536-541),
with its current datapoint readings resolved. -/
structure Actuator where
  id : String
  enabled : Bool
  mode : ActMode
  priority : ℚ
  phases : ℚ
  measurePowerId : String
  setpointId : String
  enableId : String
  measureW : Option ℚ
  curSet : Option ℚ
  curEnabled : Option Bool
  minV : Option ℚ
  maxV : Option ℚ
  deriving DecidableEq, Repr

/-- A remembered baseline (`_baselines` map entry, line 460). -/
structure BaselineMem where
  mode : ActMode
  phases : ℚ
  baseline : Option ℚ
  baselineEnabled : Option Bool
  deriving DecidableEq, Repr

/-- A registry write issued during actuation. -/
inductive WriteEv where
  | numW (key : String) (v : ℚ)
  | boolW (key : String) (b : Bool)
  deriving DecidableEq, Repr

/-- JavaScript `toLowerCase` restricted to ASCII letters. -/
def jsLowerChar (c : Char) : Char :=
  if 'A' ≤ c ∧ c ≤ 'Z' then Char.ofNat (c.toNat + 32) else c

def safeChar (c : Char) : Bool :=
  (decide ('a' ≤ c) && decide (c ≤ 'z')) ||
  (decide ('0' ≤ c) && decide (c ≤ '9')) || decide (c = '_')

/-- `replace(/[^a-z0-9_]+/g, '_')`: each run of unsafe characters becomes a
single underscore (the Bool argument tracks whether the previous character
was part of such a run). -/
def collapseRuns : List Char → Bool → List Char
  | [], _ => []
  | c :: cs, prevRepl =>
    if safeChar c then c :: collapseRuns cs false
    else if prevRepl then collapseRuns cs true
    else '_' :: collapseRuns cs true

/-- Line 426/546: `id.toLowerCase().replace(/[^a-z0-9_]+/g, '_').slice(0, 64)`. -/
def toSafeId (s : String) : String :=
  String.mk ((collapseRuns (s.data.map jsLowerChar) false).take 64)

/-- The filter both `_applyActuators` and `_restoreActuators` apply to the
configured actuator list (enabled, nonempty id, a setpoint or enable id). -/
def restoreList (actuators : List Actuator) : List Actuator :=
  actuators.filter (fun a =>
    a.enabled && decide (a.id ≠ "") &&
      (decide (a.setpointId ≠ "") || decide (a.enableId ≠ "")))

/-- Lines 547-556: the restore writes for one configured actuator — nothing
without a remembered baseline; the setpoint only for a finite numeric
baseline with a setpoint id; the enable flag only for a boolean remembered
enabled state with an enable id. -/
def restoreWritesFor (a : Actuator) (baselines : List (String × BaselineMem)) :
    List WriteEv :=
  let safeId := toSafeId a.id
  match List.lookup safeId baselines with
  | none => []
  | some mem =>
    (match mem.baseline with
     | some b =>
       if a.setpointId ≠ "" then [WriteEv.numW ("ps.act." ++ safeId ++ ".setpoint") b]
       else []
     | none => []) ++
    (match mem.baselineEnabled with
     | some be =>
       if a.enableId ≠ "" then [WriteEv.boolW ("ps.act." ++ safeId ++ ".enable") be]
       else []
     | none => [])

/-- `_restoreActuators` (lines 531-558): restore every actuator of the
CURRENT config list that has a remembered baseline, then clear all
baselines. -/
def restoreActuators (actuators : List Actuator)
    (baselines : List (String × BaselineMem)) :
    List WriteEv × List (String × BaselineMem) :=
  (((restoreList actuators).map (fun a => restoreWritesFor a baselines)).flatten, [])

/-- The sort comparator of line 422: priority ascending, then id. -/
def actLE (x y : Actuator) : Bool :=
  decide (x.priority < y.priority) ||
    (decide (x.priority = y.priority) && decide (x.id ≤ y.id))

def insertAct (a : Actuator) : List Actuator → List Actuator
  | [] => [a]
  | b :: rest => if actLE a b then a :: b :: rest else b :: insertAct a rest

def sortActuators : List Actuator → List Actuator
  | [] => []
  | a :: rest => insertAct a (sortActuators rest)

/-- Lines 444-460: the baseline captured on first contact in an activation
episode — measured power, else current setpoint, else configured max
(`limitW`); current setpoint, else max (`limitA`); nothing (`onOff`). -/
def actBaselineCapture (a : Actuator) (phases : ℚ) : BaselineMem :=
  let baseline : Option ℚ :=
    match a.mode with
    | .limitW =>
      match (if a.measurePowerId ≠ "" then a.measureW else none) with
      | some m => some m
      | none =>
        match (if a.setpointId ≠ "" then a.curSet else none) with
        | some cs => some cs
        | none => a.maxV
    | .limitA =>
      match (if a.setpointId ≠ "" then a.curSet else none) with
      | some cs => some cs
      | none => a.maxV
    | .onOff => none
  { mode := a.mode, phases := phases, baseline := baseline,
    baselineEnabled := if a.enableId ≠ "" then a.curEnabled else none }

/-- Lines 463-529: the writes and the consumed reduction for one actuator. -/
def actApplyOne (a : Actuator) (mem : BaselineMem) (remainingW vFactor : ℚ) :
    List WriteEv × ℚ :=
  let safeId := toSafeId a.id
  match a.mode with
  | .onOff =>
    let measW : Option ℚ := if a.measurePowerId ≠ "" then a.measureW else none
    let assumedW : ℚ :=
      match measW with
      | some m => if 0 < m then m else (match a.maxV with | some mx => mx | none => 0)
      | none => match a.maxV with | some mx => mx | none => 0
    if 0 < assumedW ∧ assumedW * (1/2) ≤ remainingW then
      ((if a.enableId ≠ "" then [WriteEv.boolW ("ps.act." ++ safeId ++ ".enable") false]
        else []), assumedW)
    else ([], 0)
  | .limitW =>
    match mem.baseline with
    | none => ([], 0)
    | some b =>
      let minW := match a.minV with | some m => m | none => 0
      let maxW := match a.maxV with | some m => m | none => b
      let baseW := clampQ b minW maxW
      let reducibleW := max 0 (baseW - minW)
      let useW := min remainingW reducibleW
      let targetW := baseW - useW
      ((if a.setpointId ≠ "" then [WriteEv.numW ("ps.act." ++ safeId ++ ".setpoint") targetW]
        else []) ++
       (if a.enableId ≠ "" then
         [WriteEv.boolW ("ps.act." ++ safeId ++ ".enable") (decide (0 < targetW))]
        else []), useW)
  | .limitA =>
    match mem.baseline with
    | none => ([], 0)
    | some b =>
      let minA := match a.minV with | some m => m | none => 0
      let maxA := match a.maxV with | some m => m | none => b
      let baseA := clampQ b minA maxA
      let reducibleA := max 0 (baseA - minA)
      let reducibleW := reducibleA * vFactor
      let useW := min remainingW reducibleW
      let useA := useW / vFactor
      let targetA := baseA - useA
      ((if a.setpointId ≠ "" then [WriteEv.numW ("ps.act." ++ safeId ++ ".setpoint") targetA]
        else []) ++
       (if a.enableId ≠ "" then
         [WriteEv.boolW ("ps.act." ++ safeId ++ ".enable") (decide (0 < targetA))]
        else []), useW)

/-- The `_applyActuators` loop (lines 424-529): stop when the remaining
reduction is spent, look up or capture the baseline, then emit the mode's
writes and consume its reduction. -/
def applyActList (voltageV : ℚ) :
    List Actuator → ℚ → List (String × BaselineMem) →
    List WriteEv × List (String × BaselineMem)
  | [], _, bl => ([], bl)
  | a :: rest, remainingW, bl =>
    if remainingW ≤ 0 then ([], bl)
    else
      let safeId := toSafeId a.id
      let phases : ℚ := if a.phases = 1 then 1 else 3
      let vFactor := voltageV * phases
      let memBl : BaselineMem × List (String × BaselineMem) :=
        match List.lookup safeId bl with
        | some m => (m, bl)
        | none =>
          let m := actBaselineCapture a phases
          (m, (safeId, m) :: bl)
      let step := actApplyOne a memBl.1 remainingW vFactor
      let restOut := applyActList voltageV rest (remainingW - step.2) memBl.2
      (step.1 ++ restOut.1, restOut.2)

/-- `_applyActuators` (lines 405-529). -/
def applyActuators (voltageV : ℚ) (actuators : List Actuator)
    (requiredReductionW : ℚ) (bl : List (String × BaselineMem)) :
    List WriteEv × List (String × BaselineMem) :=
  applyActList voltageV (sortActuators (restoreList actuators)) requiredReductionW bl

/-- The module's actuation memory across ticks. -/
structure PsActState where
  baselines : List (String × BaselineMem)
  wasActive : Bool
  deriving DecidableEq, Repr

/-- Tick lines 352-364: clear baselines on a fresh activation, then apply
while active with a positive required reduction, or restore on leaving the
active state. -/
def psTickActuation (actEnabled active : Bool) (requiredReductionW voltageV : ℚ)
    (actuators : List Actuator) (st : PsActState) :
    List WriteEv × PsActState :=
  let bl0 := if active && !st.wasActive then [] else st.baselines
  if actEnabled && active && decide (0 < requiredReductionW) then
    let r := applyActuators voltageV actuators requiredReductionW bl0
    (r.1, { baselines := r.2, wasActive := active })
  else if st.wasActive && !active then
    let r := restoreActuators actuators bl0
    (r.1, { baselines := r.2, wasActive := active })
  else ([], { baselines := bl0, wasActive := active })

/-- A baseline captured for the actuator id "Heater 1". -/
def c8Mem : BaselineMem :=
  { mode := ActMode.limitW, phases := 3, baseline := some 5000,
    baselineEnabled := some true }

/-- The same actuator, disabled in the config at release time. -/
def c8Gone : Actuator :=
  { id := "Heater 1", enabled := false, mode := ActMode.limitW, priority := 1,
    phases := 3, measurePowerId := "", setpointId := "sp.id", enableId := "en.id",
    measureW := none, curSet := none, curEnabled := none,
    minV := some 0, maxV := some 6000 }

/-- C8 (counterexample): a release tick whose config list has the actuator
disabled issues NO restore write although a baseline (5000 W, enabled) was
captured for it — restore iterates the current config list, so the baseline
is silently dropped (and still cleared). -/
theorem C8_disabled_actuator_not_restored_cex :
    psTickActuation true false 0 230 [c8Gone]
        { baselines := [("heater_1", c8Mem)], wasActive := true } =
      ([], { baselines := [], wasActive := false }) ∧
    c8Mem.baseline = some 5000 ∧ c8Mem.baselineEnabled = some true := by decide

/-- C8: a tick leaving the active state runs the restore pass and always
ends with an empty baseline map; every actuator of the current config list
with a remembered baseline gets its setpoint rewritten to the captured
numeric baseline and its enable flag to the captured boolean state (each
under its id being configured); and a fresh activation clears the baseline
map before any capture, so the tick's outcome is independent of the
incoming baselines. Restoration reaches only actuators still present and
enabled in the config list at release time. -/
theorem C8_baseline_restore :
    (∀ (actE : Bool) (rrw vv : ℚ) (acts : List Actuator) (st : PsActState),
      st.wasActive = true →
      psTickActuation actE false rrw vv acts st =
        ((restoreActuators acts st.baselines).1,
          { baselines := [], wasActive := false })) ∧
    (∀ (acts : List Actuator) (bl : List (String × BaselineMem)) (a : Actuator)
        (mem : BaselineMem),
      a ∈ restoreList acts → List.lookup (toSafeId a.id) bl = some mem →
      (∀ b, mem.baseline = some b → a.setpointId ≠ "" →
        WriteEv.numW ("ps.act." ++ toSafeId a.id ++ ".setpoint") b ∈
          (restoreActuators acts bl).1) ∧
      (∀ be, mem.baselineEnabled = some be → a.enableId ≠ "" →
        WriteEv.boolW ("ps.act." ++ toSafeId a.id ++ ".enable") be ∈
          (restoreActuators acts bl).1)) ∧
    (∀ (actE : Bool) (rrw vv : ℚ) (acts : List Actuator)
        (bl1 bl2 : List (String × BaselineMem)),
      psTickActuation actE true rrw vv acts { baselines := bl1, wasActive := false } =
        psTickActuation actE true rrw vv acts { baselines := bl2, wasActive := false }) := by
  refine ⟨?_, ?_, ?_⟩
  · intro actE rrw vv acts st hw
    unfold psTickActuation
    rw [hw]
    simp
    rfl
  · intro acts bl a mem ha hm
    constructor
    · intro b hb hsp
      unfold restoreActuators
      dsimp only
      refine List.mem_flatten.mpr ⟨restoreWritesFor a bl, List.mem_map_of_mem _ ha, ?_⟩
      unfold restoreWritesFor
      dsimp only
      rw [hm]
      dsimp only
      rw [hb]
      dsimp only
      rw [if_pos hsp]
      exact List.mem_append_left _ (List.mem_singleton.mpr rfl)
    · intro be hbe hen
      unfold restoreActuators
      dsimp only
      refine List.mem_flatten.mpr ⟨restoreWritesFor a bl, List.mem_map_of_mem _ ha, ?_⟩
      unfold restoreWritesFor
      dsimp only
      rw [hm]
      dsimp only
      rw [hbe]
      dsimp only
      rw [if_pos hen]
      exact List.mem_append_right _ (List.mem_singleton.mpr rfl)
  · intro actE rrw vv acts bl1 bl2
    unfold psTickActuation
    simp

/-- The actuator still enabled at release time. -/
def c8Act : Actuator := { c8Gone with enabled := true }

/-- C8 (witness): a release tick with the actuator still configured issues
the setpoint restore to 5000 W and the enable restore to `true`; and the
fresh-activation outcome ignores stale incoming baselines. -/
theorem C8_baseline_restore_witness :
    (psTickActuation true false 0 230 [c8Act]
        { baselines := [("heater_1", c8Mem)], wasActive := true } =
      ((restoreActuators [c8Act] [("heater_1", c8Mem)]).1,
        { baselines := [], wasActive := false })) ∧
    WriteEv.numW ("ps.act." ++ toSafeId c8Act.id ++ ".setpoint") 5000 ∈
      (restoreActuators [c8Act] [("heater_1", c8Mem)]).1 ∧
    WriteEv.boolW ("ps.act." ++ toSafeId c8Act.id ++ ".enable") true ∈
      (restoreActuators [c8Act] [("heater_1", c8Mem)]).1 ∧
    psTickActuation true true 100 230 []
        { baselines := [("junk", c8Mem)], wasActive := false } =
      psTickActuation true true 100 230 [] { baselines := [], wasActive := false } :=
  ⟨C8_baseline_restore.1 true 0 230 [c8Act]
     { baselines := [("heater_1", c8Mem)], wasActive := true } rfl,
   (C8_baseline_restore.2.1 [c8Act] [("heater_1", c8Mem)] c8Act c8Mem
     (by decide) (by decide)).1 5000 rfl (by decide),
   (C8_baseline_restore.2.1 [c8Act] [("heater_1", c8Mem)] c8Act c8Mem
     (by decide) (by decide)).2 true rfl (by decide),
   C8_baseline_restore.2.2 true 100 230 [] [("junk", c8Mem)] []⟩

/-! ### Claim C2: the stale-metering failsafe
(charging-management.js tick lines 660-808)

The peak-shaving-derived budget freshness (`isStateStale` on an ioBroker
state outside the registry) and the peak-shaving active flag are resolved
inputs (`psBudgetStale`, `peakActive`). -/

/-- Line 667: the grid metering keys required for safe operation. -/
def gridKeys : List String := ["cm.gridPowerW", "ps.gridPowerW"]

/-- Lines 668-683: stale when no grid key is configured, or when any
configured one has gone stale. -/
def computeStaleMeter (r : Registry) (staleTimeoutMs now : ℚ) : Bool :=
  let configured := gridKeys.filter (fun k => (getEntry r k).isSome)
  if configured = [] then true
  else configured.any (fun k => isStale r k staleTimeoutMs now)

/-- Lines 686-697: the external budget datapoint (modes `fromDatapoint` and
`engine` with a configured id) and the peak-shaving budget (mode
`fromPeakShaving`, or `engine` while peak shaving is active). -/
def computeStaleBudget (r : Registry) (budgetMode budgetPowerId : String)
    (staleTimeoutMs now : ℚ) (staleMeter psBudgetStale peakActive : Bool) : Bool :=
  let sb1 : Bool :=
    if !staleMeter && (decide (budgetMode = "fromDatapoint") || decide (budgetMode = "engine"))
        && decide (budgetPowerId ≠ "") && (getEntry r "cm.budgetPowerW").isSome then
      isStale r "cm.budgetPowerW" staleTimeoutMs now
    else false
  if !staleMeter && !sb1
      && (decide (budgetMode = "fromPeakShaving") || decide (budgetMode = "engine")) then
    if decide (budgetMode = "fromPeakShaving") || peakActive then psBudgetStale else sb1
  else sb1

/-- What the failsafe branch records for one wallbox (lines 716-781). -/
structure WbTickOut where
  targetW : ℚ
  targetA : ℚ
  reason : Reason
  writeAttempted : Bool
  deriving DecidableEq, Repr

/-- In the failsafe branch every wallbox gets zero targets; an enabled and
online one gets reason `STALE_METER` and an `applySetpoint` call with the
zero targets, the others their availability reason and no write. -/
def staleWbOut (w : Wallbox) : WbTickOut :=
  { targetW := 0, targetA := 0,
    reason := if w.enabled && w.online then Reason.staleMeter
              else availabilityReason w.enabled w.online,
    writeAttempted := w.enabled && w.online }

/-- The tick inputs feeding the stale decision. -/
structure CMTickIn where
  mode : String
  budgetMode : String
  budgetPowerId : String
  reg : Registry
  now : ℚ
  staleTimeoutMs : ℚ
  peakActive : Bool
  psBudgetStale : Bool
  deriving DecidableEq, Repr

/-- Lines 698-808: `staleRelevant = (mode !== 'off') && (staleMeter ||
staleBudget)`; when it holds the tick short-circuits into the failsafe
branch (`some` of status and per-wallbox records), otherwise allocation
proceeds (`none`). -/
def cmStaleTick (inp : CMTickIn) (wallboxes : List Wallbox) :
    Option (String × List WbTickOut) :=
  let sm := computeStaleMeter inp.reg inp.staleTimeoutMs inp.now
  let sb := computeStaleBudget inp.reg inp.budgetMode inp.budgetPowerId
    inp.staleTimeoutMs inp.now sm inp.psBudgetStale inp.peakActive
  if decide (inp.mode ≠ "off") && (sm || sb) then
    some ("failsafe_stale_meter", wallboxes.map staleWbOut)
  else none

/-- C2: with no grid key mapped the meter is stale; a mapped grid key gone
stale makes the meter stale; with mode other than `off` and a stale meter
or budget the tick enters the failsafe branch, recording zero targets for
every wallbox; an enabled and online wallbox gets reason `STALE_METER` and
a write attempt with the zero targets. -/
theorem C2_stale_failsafe :
    (∀ (r : Registry) (stm now : ℚ),
      getEntry r "cm.gridPowerW" = none → getEntry r "ps.gridPowerW" = none →
      computeStaleMeter r stm now = true) ∧
    (∀ (r : Registry) (stm now : ℚ) (k : String), k ∈ gridKeys →
      (getEntry r k).isSome = true → isStale r k stm now = true →
      computeStaleMeter r stm now = true) ∧
    (∀ (inp : CMTickIn) (ws : List Wallbox),
      inp.mode ≠ "off" →
      (computeStaleMeter inp.reg inp.staleTimeoutMs inp.now ||
        computeStaleBudget inp.reg inp.budgetMode inp.budgetPowerId
          inp.staleTimeoutMs inp.now
          (computeStaleMeter inp.reg inp.staleTimeoutMs inp.now)
          inp.psBudgetStale inp.peakActive) = true →
      cmStaleTick inp ws = some ("failsafe_stale_meter", ws.map staleWbOut)) ∧
    (∀ w : Wallbox, w.enabled = true → w.online = true →
      staleWbOut w = { targetW := 0, targetA := 0, reason := Reason.staleMeter,
                       writeAttempted := true }) := by
  refine ⟨?_, ?_, ?_, ?_⟩
  · intro r stm now h1 h2
    unfold computeStaleMeter gridKeys
    simp [List.filter, h1, h2]
  · intro r stm now k hk hsome hstale
    unfold computeStaleMeter
    dsimp only
    have hmem : k ∈ gridKeys.filter (fun k => (getEntry r k).isSome) :=
      List.mem_filter.mpr ⟨hk, hsome⟩
    rw [if_neg (List.ne_nil_of_mem hmem)]
    exact List.any_eq_true.mpr ⟨k, hmem, hstale⟩
  · intro inp ws hmode hst
    unfold cmStaleTick
    dsimp only
    rw [hst]
    simp [hmode]
  · intro w he ho
    unfold staleWbOut
    rw [he, ho]
    rfl

/-- The concrete tick inputs of the witness: an empty registry. -/
def c2In : CMTickIn :=
  { mode := "priority", budgetMode := "static", budgetPowerId := "",
    reg := { byKey := [], cache := [] },
    now := 100000, staleTimeoutMs := 30000,
    peakActive := false, psBudgetStale := false }

def c2Wb : Wallbox := dcRetryWallbox

/-- The mapped grid datapoint of the witness. -/
def c2GridEntry : DpEntry :=
  { objectId := "mb.grid", scale := 1, offset := 0, invert := false,
    minV := none, maxV := none }

/-- A registry where the grid datapoint is mapped but its cache entry is
99 s old against a 30 s timeout. -/
def c2StaleReg : Registry :=
  { byKey := [("cm.gridPowerW", c2GridEntry)],
    cache := [("mb.grid", { val := JsVal.num 1200, ts := 1000 })] }

/-- C2 (witness): an unmapped grid datapoint and an over-age one both set
the stale flag; the tick with mode `priority` enters the failsafe branch
and the enabled, online wallbox is commanded 0 W / 0 A with reason
`STALE_METER` and a write attempt. -/
theorem C2_stale_failsafe_witness :
    computeStaleMeter { byKey := [], cache := [] } 30000 100000 = true ∧
    computeStaleMeter c2StaleReg 30000 100000 = true ∧
    cmStaleTick c2In [c2Wb] = some ("failsafe_stale_meter", [staleWbOut c2Wb]) ∧
    staleWbOut c2Wb = { targetW := 0, targetA := 0, reason := Reason.staleMeter,
                        writeAttempted := true } :=
  ⟨C2_stale_failsafe.1 { byKey := [], cache := [] } 30000 100000 rfl rfl,
   C2_stale_failsafe.2.1 c2StaleReg 30000 100000 "cm.gridPowerW"
     (by decide) (by decide) (by decide),
   C2_stale_failsafe.2.2.1 c2In [c2Wb] (by decide) (by decide),
   C2_stale_failsafe.2.2.2 c2Wb rfl rfl⟩

end NexoWatt
